import Mathlib

/-!
Shallow embedding of the Janggi rules engine (src/JanggiEngine.py).

A board cell is the two-character string of the source, modelled as a pair of
characters: ('R','K') for "RK", ('-','-') for "--".  The 10x9 grid mutated in
place by the source is modelled as a total function from (row, col) to cells,
updated functionally; every read the source performs is guarded to the ranges
0..9 / 0..8, so values outside those ranges never influence any result.
Methods that mutate `self` are embedded in state-passing style: they take a
`GameState` and return their result together with the updated state.
-/

abbrev Cell := Char × Char

abbrev Board := Int → Int → Cell

/-- Functional update of one board cell: `board[r][c] = v` in the source. -/
def boardSet (b : Board) (r c : Int) (v : Cell) : Board :=
  fun r' c' => if r' = r ∧ c' = c then v else b r' c'

/-- The `Move` class: start/end coordinates plus the snapshots of the piece
moved and the piece captured, taken from the board at construction time. -/
structure Move where
  startRow : Int
  startCol : Int
  endRow : Int
  endCol : Int
  pieceMoved : Cell
  pieceCaptured : Cell
deriving DecidableEq, Repr

/-- `Move.__init__(startSq, endSq, board)`. -/
def Move.make (startSq endSq : Int × Int) (board : Board) : Move :=
  { startRow := startSq.1
    startCol := startSq.2
    endRow := endSq.1
    endCol := endSq.2
    pieceMoved := board startSq.1 startSq.2
    pieceCaptured := board endSq.1 endSq.2 }

/-- The mutable attributes of `JanggiGame`. -/
structure GameState where
  board : Board
  game_state : String
  moveLog : List Move
  player_turn : String
  checkmate : Bool
  player_red : Option Bool
  player_blue : Option Bool

/-- `set_player_turn`: flip RED to BLUE, anything else to RED. -/
def flipTurn (t : String) : String :=
  if t = "RED" then "BLUE" else "RED"

def setPlayerTurn (s : GameState) : GameState :=
  { s with player_turn := flipTurn s.player_turn }

/-- The tuple `((1,0), (-1,0), (0,-1), (0,1))` of the source. -/
def directions : List (Int × Int) := [(1,0), (-1,0), (0,-1), (0,1)]

/-- The tuple `((-1,-1), (1,-1), (-1,1), (1,1))` of the source. -/
def diagnolCor : List (Int × Int) := [(-1,-1), (1,-1), (-1,1), (1,1)]

/-- Red-palace diagonal points `((0,3), (2,3), (0,5), (2,5), (1,4))`. -/
def redPalacePos : List (Int × Int) := [(0,3), (2,3), (0,5), (2,5), (1,4)]

/-- Blue-palace diagonal points `((9,3), (7,3), (9,5), (7,5), (8,4))`. -/
def bluePalacePos : List (Int × Int) := [(9,3), (7,3), (9,5), (7,5), (8,4)]

/-- The ten palace points used by rook and cannon diagonals. -/
def diagonalPosAll : List (Int × Int) :=
  [(9,3), (7,3), (9,5), (7,5), (8,4), (0,3), (2,3), (0,5), (2,5), (1,4)]

/-- One straight or sideways soldier step: append when the target is empty,
else when the target's first character is the enemy colour. -/
def pawnStep (b : Board) (enemy : Char) (row col er ec : Int) : List Move :=
  if b er ec = ('-','-') then [Move.make (row, col) (er, ec) b]
  else if (b er ec).1 = enemy then [Move.make (row, col) (er, ec) b]
  else []

/-- `get_pawn_moves`. -/
def getPawnMoves (b : Board) (turn : String) (row col : Int) : List Move :=
  if turn = "RED" then
    (if 0 ≤ row + 1 ∧ row + 1 ≤ 9 then pawnStep b 'B' row col (row + 1) col else []) ++
    (if 0 ≤ col + 1 ∧ col + 1 ≤ 8 then pawnStep b 'B' row col row (col + 1) else []) ++
    (if 0 ≤ col - 1 ∧ col - 1 ≤ 8 then pawnStep b 'B' row col row (col - 1) else []) ++
    (redPalacePos.flatMap fun i =>
      if row = i.1 ∧ col = i.2 then
        diagnolCor.flatMap fun cc =>
          let dRow := row + cc.1
          let dCol := col + cc.2
          if 7 ≤ dRow ∧ dRow ≤ 9 ∧ 3 ≤ dCol ∧ dCol ≤ 5 then
            (if b dRow dCol = ('-','-') then [Move.make (row, col) (dRow, dCol) b] else []) ++
            (if (b dRow dCol).1 = 'B' then [Move.make (row, col) (dRow, dCol) b] else [])
          else []
      else [])
  else
    (if 0 ≤ row - 1 ∧ row - 1 ≤ 9 then pawnStep b 'R' row col (row - 1) col else []) ++
    (if 0 ≤ col + 1 ∧ col + 1 ≤ 8 then pawnStep b 'R' row col row (col + 1) else []) ++
    (if 0 ≤ col - 1 ∧ col - 1 ≤ 8 then pawnStep b 'R' row col row (col - 1) else []) ++
    (bluePalacePos.flatMap fun i =>
      if row = i.1 ∧ col = i.2 then
        diagnolCor.flatMap fun cc =>
          let dRow := row + cc.1
          let dCol := col + cc.2
          if 0 ≤ dRow ∧ dRow ≤ 2 ∧ 3 ≤ dCol ∧ dCol ≤ 5 then
            (if b dRow dCol = ('-','-') then [Move.make (row, col) (dRow, dCol) b] else []) ++
            (if (b dRow dCol).1 = 'R' then [Move.make (row, col) (dRow, dCol) b] else [])
          else []
      else [])

/-- One step `i` of the rook's sliding scan along direction `d`, threading the
`mark` flag (0 = still sliding, 1 = blocked) and the accumulated appends. -/
def rookRayStep (b : Board) (own enemy : Char) (row col : Int) (d : Int × Int)
    (st : Nat × List Move) (i : Nat) : Nat × List Move :=
  let mark := st.1
  let acc := st.2
  let endRow := row + d.1 * (i : Int)
  let endCol := col + d.2 * (i : Int)
  if 0 ≤ endRow ∧ endRow ≤ 9 ∧ 0 ≤ endCol ∧ endCol ≤ 8 then
    let endPiece := b endRow endCol
    if mark = 0 then
      if endPiece.1 = own then (1, acc)
      else if endPiece = ('-','-') then (mark, acc ++ [Move.make (row, col) (endRow, endCol) b])
      else if endPiece.1 = enemy then (1, acc ++ [Move.make (row, col) (endRow, endCol) b])
      else (mark, acc)
    else (mark, acc)
  else (mark, acc)

/-- The rook's palace-diagonal block (both palaces' points). -/
def rookDiag (b : Board) (enemy : Char) (row col : Int) : List Move :=
  diagonalPosAll.flatMap fun i =>
    if row = i.1 ∧ col = i.2 then
      diagnolCor.flatMap fun cc =>
        let dRow := row + cc.1
        let dCol := col + cc.2
        if (7 ≤ dRow ∧ dRow ≤ 9 ∧ 3 ≤ dCol ∧ dCol ≤ 5) ∨
           (0 ≤ dRow ∧ dRow ≤ 2 ∧ 3 ≤ dCol ∧ dCol ≤ 5) then
          (if b dRow dCol = ('-','-') then [Move.make (row, col) (dRow, dCol) b] else []) ++
          (if (b dRow dCol).1 = enemy then [Move.make (row, col) (dRow, dCol) b] else [])
        else []
    else []

/-- `get_rook_moves`.  In the RED branch of the source the palace-diagonal
block sits inside the direction loop (so it runs four times); in the BLUE
branch it sits outside (so it runs once). -/
def getRookMoves (b : Board) (turn : String) (row col : Int) : List Move :=
  if turn = "RED" then
    directions.flatMap fun d =>
      ((List.range' 1 9).foldl (rookRayStep b 'R' 'B' row col d) (0, [])).2 ++
        rookDiag b 'B' row col
  else if turn = "BLUE" then
    (directions.flatMap fun d =>
      ((List.range' 1 9).foldl (rookRayStep b 'B' 'R' row col d) (0, [])).2) ++
      rookDiag b 'R' row col
  else []

/-- The four `(direction, check_direction, right_direction)` triples obtained
by indexing `check_directions` and `right_directions` with the loop counter. -/
def horseTriples : List ((Int × Int) × (Int × Int) × (Int × Int)) :=
  [((1,0), (1,-1), (1,1)),
   ((-1,0), (-1,-1), (-1,1)),
   ((0,-1), (1,-1), (-1,-1)),
   ((0,1), (-1,1), (1,1))]

/-- One diagonal continuation of a horse move past the (empty) first step. -/
def horseHalf (b : Board) (own : Char) (row col endRow endCol : Int)
    (dd : Int × Int) : List Move :=
  if 0 ≤ endRow + dd.1 ∧ endRow + dd.1 ≤ 9 ∧ 0 ≤ endCol + dd.2 ∧ endCol + dd.2 ≤ 8 then
    if (b (endRow + dd.1) (endCol + dd.2)).1 ≠ own then
      [Move.make (row, col) (endRow + dd.1, endCol + dd.2) b]
    else []
  else []

/-- `get_horse_moves`.  The RED and BLUE branches differ only in the colour
character tested at the landing square. -/
def getHorseMoves (b : Board) (turn : String) (row col : Int) : List Move :=
  let own := if turn = "RED" then 'R' else 'B'
  horseTriples.flatMap fun t =>
    let endRow := row + t.1.1
    let endCol := col + t.1.2
    if 0 ≤ endRow ∧ endRow ≤ 9 ∧ 0 ≤ endCol ∧ endCol ≤ 8 then
      if (b endRow endCol).1 ≠ '-' then []
      else
        horseHalf b own row col endRow endCol t.2.1 ++
        horseHalf b own row col endRow endCol t.2.2
    else []

/-- One diagonal continuation of an elephant move, with the source's `mark`
bookkeeping (including the dead re-test of the intermediate square). -/
def elephantHalf (b : Board) (own : Char) (row col endRow endCol : Int)
    (dd : Int × Int) : List Move :=
  let r1 := endRow + dd.1
  let c1 := endCol + dd.2
  if 0 ≤ r1 ∧ r1 ≤ 9 ∧ 0 ≤ c1 ∧ c1 ≤ 8 then
    let checkPiece := b r1 c1
    let mark1 : Nat := if checkPiece ≠ ('-','-') then 3 else 0
    if 0 ≤ r1 ∧ r1 ≤ 9 ∧ 0 ≤ c1 ∧ c1 ≤ 8 then
      let mark2 : Nat :=
        if (mark1 = 0 ∧ (b r1 c1).1 = 'R') ∨ (b r1 c1).1 = 'B' then 3 else mark1
      let r2 := endRow + dd.1 * 2
      let c2 := endCol + dd.2 * 2
      if 0 ≤ r2 ∧ r2 ≤ 9 ∧ 0 ≤ c2 ∧ c2 ≤ 8 then
        if mark2 = 0 ∧ (b r2 c2).1 ≠ own then [Move.make (row, col) (r2, c2) b] else []
      else []
    else []
  else []

/-- `get_elephant_moves`. -/
def getElephantMoves (b : Board) (turn : String) (row col : Int) : List Move :=
  let own := if turn = "RED" then 'R' else 'B'
  horseTriples.flatMap fun t =>
    let endRow := row + t.1.1
    let endCol := col + t.1.2
    if 0 ≤ endRow ∧ endRow ≤ 9 ∧ 0 ≤ endCol ∧ endCol ≤ 8 then
      if (b endRow endCol).1 ≠ '-' then []
      else
        elephantHalf b own row col endRow endCol t.2.1 ++
        elephantHalf b own row col endRow endCol t.2.2
    else []

/-- One step `i` of the cannon's sliding scan along direction `d`, threading
`mark` (0 = looking for a screen, 1 = jumped the screen, 3 = dead). -/
def cannonRayStep (b : Board) (own enemy : Char) (row col : Int) (d : Int × Int)
    (st : Nat × List Move) (i : Nat) : Nat × List Move :=
  let mark := st.1
  let acc := st.2
  let endRow := row + d.1 * (i : Int)
  let endCol := col + d.2 * (i : Int)
  if 0 ≤ endRow ∧ endRow ≤ 9 ∧ 0 ≤ endCol ∧ endCol ≤ 8 then
    let endPiece := b endRow endCol
    if endPiece.1 ≠ '-' ∧ mark = 0 then
      if endPiece.2 = 'C' then (3, acc) else (1, acc)
    else if endPiece = ('-','-') ∧ mark = 0 then (0, acc)
    else if mark = 1 ∧ endPiece = ('-','-') then
      (1, acc ++ [Move.make (row, col) (endRow, endCol) b])
    else if mark = 1 ∧ endPiece.1 = enemy then
      (3, acc ++ [Move.make (row, col) (endRow, endCol) b])
    else if mark = 1 ∧ endPiece.1 = own then (3, acc)
    else (mark, acc)
  else (mark, acc)

/-- The cannon's palace-diagonal block: jump the adjacent palace point when
occupied and land two points away unless the landing holds an own piece. -/
def cannonDiag (b : Board) (own : Char) (row col : Int) : List Move :=
  diagonalPosAll.flatMap fun i =>
    if row = i.1 ∧ col = i.2 then
      diagnolCor.flatMap fun cc =>
        let dRow := row + cc.1
        let dCol := col + cc.2
        if (7 ≤ dRow ∧ dRow ≤ 9 ∧ 3 ≤ dCol ∧ dCol ≤ 5) ∨
           (0 ≤ dRow ∧ dRow ≤ 2 ∧ 3 ≤ dCol ∧ dCol ≤ 5) then
          if b dRow dCol ≠ ('-','-') then
            let dRow2 := row + cc.1 * 2
            let dCol2 := col + cc.2 * 2
            if (7 ≤ dRow2 ∧ dRow2 ≤ 9 ∧ 3 ≤ dCol2 ∧ dCol2 ≤ 5) ∨
               (0 ≤ dRow2 ∧ dRow2 ≤ 2 ∧ 3 ≤ dCol2 ∧ dCol2 ≤ 5) then
              if (b dRow2 dCol2).1 ≠ own then [Move.make (row, col) (dRow2, dCol2) b]
              else []
            else []
          else []
        else []
    else []

/-- `get_cannon_moves`. -/
def getCannonMoves (b : Board) (turn : String) (row col : Int) : List Move :=
  if turn = "RED" then
    (directions.flatMap fun d =>
      ((List.range' 1 9).foldl (cannonRayStep b 'R' 'B' row col d) (0, [])).2) ++
      cannonDiag b 'R' row col
  else if turn = "BLUE" then
    (directions.flatMap fun d =>
      ((List.range' 1 9).foldl (cannonRayStep b 'B' 'R' row col d) (0, [])).2) ++
      cannonDiag b 'B' row col
  else []

/-- Shared body of `get_guards_moves` and `get_general_moves`; the two source
methods are textually identical. -/
def guardLike (b : Board) (turn : String) (row col : Int) : List Move :=
  if turn = "RED" then
    (directions.flatMap fun d =>
      let endRow := row + d.1
      let endCol := col + d.2
      if 0 ≤ endRow ∧ endRow ≤ 2 ∧ 3 ≤ endCol ∧ endCol ≤ 5 then
        if b endRow endCol = ('-','-') then [Move.make (row, col) (endRow, endCol) b]
        else if (b endRow endCol).1 = 'B' then [Move.make (row, col) (endRow, endCol) b]
        else []
      else []) ++
    (redPalacePos.flatMap fun i =>
      if row = i.1 ∧ col = i.2 then
        diagnolCor.flatMap fun cc =>
          let dRow := row + cc.1
          let dCol := col + cc.2
          if 0 ≤ dRow ∧ dRow ≤ 2 ∧ 3 ≤ dCol ∧ dCol ≤ 5 then
            (if b dRow dCol = ('-','-') then [Move.make (row, col) (dRow, dCol) b] else []) ++
            (if (b dRow dCol).1 = 'B' then [Move.make (row, col) (dRow, dCol) b] else [])
          else []
      else [])
  else
    (directions.flatMap fun d =>
      let endRow := row + d.1
      let endCol := col + d.2
      if 7 ≤ endRow ∧ endRow ≤ 9 ∧ 3 ≤ endCol ∧ endCol ≤ 5 then
        if b endRow endCol = ('-','-') then [Move.make (row, col) (endRow, endCol) b]
        else if (b endRow endCol).1 = 'R' then [Move.make (row, col) (endRow, endCol) b]
        else []
      else []) ++
    (bluePalacePos.flatMap fun i =>
      if row = i.1 ∧ col = i.2 then
        diagnolCor.flatMap fun cc =>
          let dRow := row + cc.1
          let dCol := col + cc.2
          if 7 ≤ dRow ∧ dRow ≤ 9 ∧ 3 ≤ dCol ∧ dCol ≤ 5 then
            (if b dRow dCol = ('-','-') then [Move.make (row, col) (dRow, dCol) b] else []) ++
            (if (b dRow dCol).1 = 'R' then [Move.make (row, col) (dRow, dCol) b] else [])
          else []
      else [])

/-- `get_guards_moves`. -/
def getGuardsMoves (b : Board) (turn : String) (row col : Int) : List Move :=
  guardLike b turn row col

/-- `get_general_moves` (its body coincides with `get_guards_moves`). -/
def getGeneralMoves (b : Board) (turn : String) (row col : Int) : List Move :=
  guardLike b turn row col

/-- `get_all_possible_moves` as a function of the only state it reads: the
board and the turn flag.  Row-major scan, fixed dispatch order per square. -/
def getAllPossibleMovesB (b : Board) (turn : String) : List Move :=
  (List.range 10).flatMap fun rn =>
    (List.range 9).flatMap fun cn =>
      let r : Int := (rn : Int)
      let c : Int := (cn : Int)
      let cell := b r c
      if (cell.1 = 'R' ∧ turn = "RED") ∨ (cell.1 = 'B' ∧ turn = "BLUE") then
        (if cell.2 = 'P' then getPawnMoves b turn r c else []) ++
        (if cell.2 = 'R' then getRookMoves b turn r c else []) ++
        (if cell.2 = 'H' then getHorseMoves b turn r c else []) ++
        (if cell.2 = 'C' then getCannonMoves b turn r c else []) ++
        (if cell.2 = 'E' then getElephantMoves b turn r c else []) ++
        (if cell.2 = 'G' then getGuardsMoves b turn r c else []) ++
        (if cell.2 = 'K' then getGeneralMoves b turn r c else [])
      else []

/-- `get_all_possible_moves` on the game state. -/
def getAllPossibleMoves (s : GameState) : List Move :=
  getAllPossibleMovesB s.board s.player_turn

/-- The row-major list of the 90 coordinates scanned by `in_check`. -/
def scanCoords : List (Int × Int) :=
  (List.range 10).flatMap fun rn =>
    (List.range 9).map fun cn => (Int.ofNat rn, Int.ofNat cn)

/-- `square_under_attack` as a function of board and turn: flip the turn,
generate every opponent pseudo move, test whether one ends on `(r, c)`. -/
def squareUnderAttackB (b : Board) (turn : String) (r c : Int) : Bool :=
  (getAllPossibleMovesB b (flipTurn turn)).any fun m =>
    m.endRow == r && m.endCol == c

/-- `square_under_attack` on the game state, with the double turn flip. -/
def squareUnderAttack (s : GameState) (r c : Int) : Bool × GameState :=
  let s1 := setPlayerTurn s
  let oppMoves := getAllPossibleMoves s1
  let s2 := setPlayerTurn s1
  ((oppMoves.any fun m => m.endRow == r && m.endCol == c), s2)

/-- `in_check` as a function of board and turn: scan for the current side's
general and test its square; `none` models Python's implicit `None` when the
scan finds no general of the side to move. -/
def inCheckB (b : Board) (turn : String) : Option Bool :=
  (scanCoords.find? fun p =>
      (b p.1 p.2 == ('R','K') && turn == "RED") ||
      (b p.1 p.2 == ('B','K') && turn == "BLUE")).map
    fun p => squareUnderAttackB b turn p.1 p.2

/-- `in_check` on the game state, recording the result in the per-side flag. -/
def inCheck (s : GameState) : Option Bool × GameState :=
  match scanCoords.find? fun p =>
      (s.board p.1 p.2 == ('R','K') && s.player_turn == "RED") ||
      (s.board p.1 p.2 == ('B','K') && s.player_turn == "BLUE") with
  | none => (none, s)
  | some p =>
    let sa := squareUnderAttack s p.1 p.2
    if s.player_turn = "RED" then (some sa.1, { sa.2 with player_red := some sa.1 })
    else (some sa.1, { sa.2 with player_blue := some sa.1 })

/-- The coordinate test used by the move searches of `test_move`/`make_move`. -/
def coordMatch (a c : Int × Int) (m : Move) : Bool :=
  m.startRow == a.1 && m.startCol == a.2 && m.endRow == c.1 && m.endCol == c.2

/-- `test_move`: pass through on equal coordinates; otherwise find the first
generated move with the given coordinates, play it on the board and flip the
turn; report failure (leaving the state alone) when no move matches. -/
def testMove (s : GameState) (start_cor end_cor : Int × Int) : Bool × GameState :=
  let moves_list := getAllPossibleMoves s
  if start_cor = end_cor then (true, setPlayerTurn s)
  else
    match moves_list.find? (coordMatch start_cor end_cor) with
    | some move =>
      let b2 :=
        boardSet (boardSet s.board move.startRow move.startCol ('-','-'))
          move.endRow move.endCol move.pieceMoved
      (true, setPlayerTurn { s with board := b2 })
    | none => (false, s)

/-- The board after simulating `m`: origin cleared, destination set to the
piece moved (the writes performed by `test_move`). -/
def simBoardOf (b : Board) (m : Move) : Board :=
  boardSet (boardSet b m.startRow m.startCol ('-','-')) m.endRow m.endCol m.pieceMoved

/-- The body of the `get_valid_moves` loop: indices are processed from
`fuel - 1` down to 0; each iteration simulates the move, flips the turn back,
drops the move when `in_check()` is `True`, and rewrites the two cells. -/
def getValidMovesLoop : Nat → List Move → GameState → List Move × GameState
  | 0, moves, s => (moves, s)
  | i + 1, moves, s =>
    match moves[i]? with
    | none => getValidMovesLoop i moves s
    | some move =>
      let endP := move.pieceCaptured
      let startP := move.pieceMoved
      let start_cor := (move.startRow, move.startCol)
      let end_cor := (move.endRow, move.endCol)
      let t := testMove s start_cor end_cor
      let s2 := setPlayerTurn t.2
      let ic := inCheck s2
      let moves2 := if ic.1 = some true then moves.eraseIdx i else moves
      let b4 :=
        boardSet (boardSet ic.2.board start_cor.1 start_cor.2 startP)
          end_cor.1 end_cor.2 endP
      getValidMovesLoop i moves2 { ic.2 with board := b4 }

/-- `get_valid_moves`. -/
def getValidMoves (s : GameState) : List Move × GameState :=
  let moves := getAllPossibleMoves s
  getValidMovesLoop moves.length moves s

/-- `undo_move`: pop the last logged move, restore the two cells from its
snapshots, flip the turn; no-op on an empty log. -/
def undoMove (s : GameState) : GameState :=
  match s.moveLog.getLast? with
  | none => s
  | some move =>
    let b2 :=
      boardSet (boardSet s.board move.startRow move.startCol move.pieceMoved)
        move.endRow move.endCol move.pieceCaptured
    setPlayerTurn { s with moveLog := s.moveLog.dropLast, board := b2 }

/-- `make_move`.  Valid moves are computed before the terminal-state test, as
in the source; equal coordinates are accepted as a pass; otherwise the first
valid move with matching coordinates is played, logged, the turn flipped, and
the checkmate test run; note the extra turn flip these branches perform. -/
def makeMove (s : GameState) (xcor ycor : Int × Int) : Bool × GameState :=
  let gv := getValidMoves s
  let moves_list := gv.1
  let s0 := gv.2
  if s0.game_state = "UNFINISHED" then
    if xcor = ycor then (true, setPlayerTurn s0)
    else
      match moves_list.find? (coordMatch xcor ycor) with
      | none => (false, s0)
      | some move =>
        let b1 :=
          boardSet (boardSet s0.board move.startRow move.startCol ('-','-'))
            move.endRow move.endCol move.pieceMoved
        let s1 := { s0 with board := b1, moveLog := s0.moveLog ++ [move] }
        let s2 := setPlayerTurn s1
        let gv2 := getValidMoves s2
        let s4 :=
          if gv2.1.length = 0 then
            let ic := inCheck gv2.2
            if ic.1 = some true then { ic.2 with checkmate := true }
            else { ic.2 with checkmate := false }
          else { gv2.2 with checkmate := false }
        let s5 :=
          if s4.checkmate = true then
            if s4.player_turn = "RED" then { s4 with game_state := "BLUE_WON" }
            else { s4 with game_state := "RED_WON" }
          else setPlayerTurn s4
        (true, setPlayerTurn s5)
  else (false, s0)

/-- Build a board function from row lists (the `__init__` grid layout). -/
def boardOfRows (rows : List (List Cell)) : Board :=
  fun r c => ((rows.getD r.toNat []).getD c.toNat ('-','-'))

/-- The initial board of `JanggiGame.__init__`. -/
def initRows : List (List Cell) :=
  [[('R','R'), ('R','E'), ('R','H'), ('R','G'), ('-','-'), ('R','G'), ('R','E'), ('R','H'), ('R','R')],
   [('-','-'), ('-','-'), ('-','-'), ('-','-'), ('R','K'), ('-','-'), ('-','-'), ('-','-'), ('-','-')],
   [('-','-'), ('R','C'), ('-','-'), ('-','-'), ('-','-'), ('-','-'), ('-','-'), ('R','C'), ('-','-')],
   [('R','P'), ('-','-'), ('R','P'), ('-','-'), ('R','P'), ('-','-'), ('R','P'), ('-','-'), ('R','P')],
   [('-','-'), ('-','-'), ('-','-'), ('-','-'), ('-','-'), ('-','-'), ('-','-'), ('-','-'), ('-','-')],
   [('-','-'), ('-','-'), ('-','-'), ('-','-'), ('-','-'), ('-','-'), ('-','-'), ('-','-'), ('-','-')],
   [('B','P'), ('-','-'), ('B','P'), ('-','-'), ('B','P'), ('-','-'), ('B','P'), ('-','-'), ('B','P')],
   [('-','-'), ('B','C'), ('-','-'), ('-','-'), ('-','-'), ('-','-'), ('-','-'), ('B','C'), ('-','-')],
   [('-','-'), ('-','-'), ('-','-'), ('-','-'), ('B','K'), ('-','-'), ('-','-'), ('-','-'), ('-','-')],
   [('B','R'), ('B','E'), ('B','H'), ('B','G'), ('-','-'), ('B','G'), ('B','E'), ('B','H'), ('B','R')]]

/-- The initial game state of `JanggiGame.__init__`. -/
def initState : GameState :=
  { board := boardOfRows initRows
    game_state := "UNFINISHED"
    moveLog := []
    player_turn := "RED"
    checkmate := false
    player_red := none
    player_blue := none }

/-! ### Basic facts about turns and board updates -/

/-- The turn flag of every state of the program is RED or BLUE. -/
def turnOK (t : String) : Prop := t = "RED" ∨ t = "BLUE"

/-- The colour character of a side's pieces. -/
def sideChar (t : String) : Char := if t = "RED" then 'R' else 'B'

/-- Every move a geometry routine appends for a piece of colour `own` sitting
at `(r, c)`: it is a `Move` snapshot taken on the current board, its
destination lies on the grid, the destination does not hold an `own`-coloured
piece, and the destination differs from the origin. -/
def GenOK (b : Board) (own : Char) (r c : Int) (m : Move) : Prop :=
  ∃ er ec, m = Move.make (r, c) (er, ec) b ∧ 0 ≤ er ∧ er ≤ 9 ∧ 0 ≤ ec ∧ ec ≤ 8 ∧
    (b er ec).1 ≠ own ∧ ¬(er = r ∧ ec = c)

/-- The filter that `get_valid_moves` effectively applies: keep `m` unless
simulating it reports the mover in check. -/
def keepB (b : Board) (t : String) (m : Move) : Bool :=
  !(inCheckB (simBoardOf b m) t == some true)

/-- The legal-move list as a function of board and turn. -/
def legalMovesB (b : Board) (t : String) : List Move :=
  (getAllPossibleMovesB b t).filter (keepB b t)

/-- A position with RED to move: RED general (1,4), RED chariots (5,0) and
(8,1), BLUE general (9,3).  Moving the chariot from (5,0) to (9,0) delivers
checkmate along the bottom row. -/
def mateRows : List (List Cell) :=
  [[('-','-'), ('-','-'), ('-','-'), ('-','-'), ('-','-'), ('-','-'), ('-','-'), ('-','-'), ('-','-')],
   [('-','-'), ('-','-'), ('-','-'), ('-','-'), ('R','K'), ('-','-'), ('-','-'), ('-','-'), ('-','-')],
   [('-','-'), ('-','-'), ('-','-'), ('-','-'), ('-','-'), ('-','-'), ('-','-'), ('-','-'), ('-','-')],
   [('-','-'), ('-','-'), ('-','-'), ('-','-'), ('-','-'), ('-','-'), ('-','-'), ('-','-'), ('-','-')],
   [('-','-'), ('-','-'), ('-','-'), ('-','-'), ('-','-'), ('-','-'), ('-','-'), ('-','-'), ('-','-')],
   [('R','R'), ('-','-'), ('-','-'), ('-','-'), ('-','-'), ('-','-'), ('-','-'), ('-','-'), ('-','-')],
   [('-','-'), ('-','-'), ('-','-'), ('-','-'), ('-','-'), ('-','-'), ('-','-'), ('-','-'), ('-','-')],
   [('-','-'), ('-','-'), ('-','-'), ('-','-'), ('-','-'), ('-','-'), ('-','-'), ('-','-'), ('-','-')],
   [('-','-'), ('R','R'), ('-','-'), ('-','-'), ('-','-'), ('-','-'), ('-','-'), ('-','-'), ('-','-')],
   [('-','-'), ('-','-'), ('-','-'), ('B','K'), ('-','-'), ('-','-'), ('-','-'), ('-','-'), ('-','-')]]

def mateState : GameState :=
  { board := boardOfRows mateRows
    game_state := "UNFINISHED"
    moveLog := []
    player_turn := "RED"
    checkmate := false
    player_red := none
    player_blue := none }

/-- A sparse position with only the two generals, RED to move. -/
def twoKingsRows : List (List Cell) :=
  [[('-','-'), ('-','-'), ('-','-'), ('-','-'), ('-','-'), ('-','-'), ('-','-'), ('-','-'), ('-','-')],
   [('-','-'), ('-','-'), ('-','-'), ('-','-'), ('R','K'), ('-','-'), ('-','-'), ('-','-'), ('-','-')],
   [('-','-'), ('-','-'), ('-','-'), ('-','-'), ('-','-'), ('-','-'), ('-','-'), ('-','-'), ('-','-')],
   [('-','-'), ('-','-'), ('-','-'), ('-','-'), ('-','-'), ('-','-'), ('-','-'), ('-','-'), ('-','-')],
   [('-','-'), ('-','-'), ('-','-'), ('-','-'), ('-','-'), ('-','-'), ('-','-'), ('-','-'), ('-','-')],
   [('-','-'), ('-','-'), ('-','-'), ('-','-'), ('-','-'), ('-','-'), ('-','-'), ('-','-'), ('-','-')],
   [('-','-'), ('-','-'), ('-','-'), ('-','-'), ('-','-'), ('-','-'), ('-','-'), ('-','-'), ('-','-')],
   [('-','-'), ('-','-'), ('-','-'), ('-','-'), ('-','-'), ('-','-'), ('-','-'), ('-','-'), ('-','-')],
   [('-','-'), ('-','-'), ('-','-'), ('-','-'), ('B','K'), ('-','-'), ('-','-'), ('-','-'), ('-','-')],
   [('-','-'), ('-','-'), ('-','-'), ('-','-'), ('-','-'), ('-','-'), ('-','-'), ('-','-'), ('-','-')]]

def twoKingsState : GameState :=
  { board := boardOfRows twoKingsRows
    game_state := "UNFINISHED"
    moveLog := []
    player_turn := "RED"
    checkmate := false
    player_red := none
    player_blue := none }

/-- The forward row step of a soldier (+1 for RED, -1 otherwise). -/
def pawnDir (t : String) : Int := if t = "RED" then 1 else -1

/-- The colour character a soldier may capture. -/
def pawnEnemy (t : String) : Char := if t = "RED" then 'B' else 'R'

/-- A board with a single RED soldier on the opposing-palace point (7,3). -/
def pawnDiagRows : List (List Cell) :=
  [[], [], [], [], [], [], [],
   [('-','-'), ('-','-'), ('-','-'), ('R','P'), ('-','-'), ('-','-'), ('-','-'), ('-','-'), ('-','-')],
   [], []]

/-- A board with a RED cannon at (0,0), a RED soldier screen at (0,2) and a
BLUE cannon at (0,5) on the same row. -/
def cannonRows : List (List Cell) :=
  [[('R','C'), ('-','-'), ('R','P'), ('-','-'), ('-','-'), ('B','C'), ('-','-'), ('-','-'), ('-','-')],
   [], [], [], [], [], [], [], [], []]

/-- The cell `k` steps from `(r, c)` along direction `d`. -/
def rayCell (b : Board) (r c : Int) (d : Int × Int) (k : Int) : Cell :=
  b (r + d.1 * k) (c + d.2 * k)

/-- Step `k` along the ray stays on the grid. -/
def rayInB (r c : Int) (d : Int × Int) (k : Int) : Prop :=
  0 ≤ r + d.1 * k ∧ r + d.1 * k ≤ 9 ∧ 0 ≤ c + d.2 * k ∧ c + d.2 * k ≤ 8

/-- There is a screen before step `n`: some step `j < n` holds the first
piece along the ray, that piece is not a cannon, and every earlier step is
empty. -/
def screenOK (b : Board) (r c : Int) (d : Int × Int) (n : Int) : Prop :=
  ∃ j : Int, 1 ≤ j ∧ j < n ∧ rayCell b r c d j ≠ ('-','-') ∧
    (rayCell b r c d j).2 ≠ 'C' ∧
    ∀ k : Int, 1 ≤ k → k < j → rayCell b r c d k = ('-','-')

lemma flipTurn_flipTurn {t : String} (h : turnOK t) : flipTurn (flipTurn t) = t := by
  rcases h with h | h <;> subst h <;> rfl

lemma turnOK_flip {t : String} (h : turnOK t) : turnOK (flipTurn t) := by
  rcases h with h | h <;> subst h <;> simp [flipTurn, turnOK]

lemma boardSet_same (b : Board) (r c : Int) (v : Cell) : boardSet b r c v r c = v := by
  simp [boardSet]

lemma boardSet_other (b : Board) (r c : Int) (v : Cell) {r' c' : Int}
    (h : ¬(r' = r ∧ c' = c)) : boardSet b r c v r' c' = b r' c' := by
  simp only [boardSet, if_neg h]

/-- Undoing the two writes of a simulation restores the original board. -/
lemma revert_boardSet (b : Board) (m : Move)
    (h1 : m.pieceMoved = b m.startRow m.startCol)
    (h2 : m.pieceCaptured = b m.endRow m.endCol) :
    boardSet (boardSet (simBoardOf b m) m.startRow m.startCol m.pieceMoved)
      m.endRow m.endCol m.pieceCaptured = b := by
  funext r' c'
  simp only [boardSet, simBoardOf]
  split_ifs with hA hB
  · rcases hA with ⟨h3, h4⟩; subst h3; subst h4; exact h2
  · rcases hB with ⟨h3, h4⟩; subst h3; subst h4; exact h1
  · rfl

/-! ### Structural facts about generated moves -/

lemma mem_ite_nil {p : Prop} [Decidable p] {l : List Move} {m : Move}
    (hm : m ∈ (if p then l else [])) : p ∧ m ∈ l := by
  split_ifs at hm with h
  · exact ⟨h, hm⟩
  · exact absurd hm (List.not_mem_nil m)

/-- Decompose membership in the pair of `if` appends that the palace-diagonal
blocks use (empty target / enemy-coloured target, same move in both). -/
lemma mem_pair_ite {p q : Prop} [Decidable p] [Decidable q] {m a : Move}
    (hm : m ∈ (if p then [a] else []) ++ (if q then [a] else [])) :
    (p ∨ q) ∧ m = a := by
  rcases List.mem_append.mp hm with h | h
  · rcases mem_ite_nil h with ⟨hp, hmem⟩
    exact ⟨Or.inl hp, List.mem_singleton.mp hmem⟩
  · rcases mem_ite_nil h with ⟨hq, hmem⟩
    exact ⟨Or.inr hq, List.mem_singleton.mp hmem⟩

/-- Decompose the `for i in diagonalPos: if at i: for c in diagnolCor` shape
shared by every palace-diagonal block. -/
lemma mem_posDiag {pos : List (Int × Int)} {f : Int × Int → List Move}
    {row col : Int} {m : Move}
    (hm : m ∈ pos.flatMap fun i =>
      if row = i.1 ∧ col = i.2 then diagnolCor.flatMap f else []) :
    ∃ cc ∈ diagnolCor, m ∈ f cc := by
  rcases List.mem_flatMap.mp hm with ⟨i, _, hmi⟩
  rcases mem_ite_nil hmi with ⟨_, hmem⟩
  exact List.mem_flatMap.mp hmem

/-- Any move surviving a `foldl` that only appends satisfies `P` unless it was
already in the accumulator. -/
lemma foldl_ray_mem {α : Type} (P : Move → Prop) :
    ∀ (l : List α) (step : Nat × List Move → α → Nat × List Move)
      (st : Nat × List Move),
      (∀ st' x, x ∈ l → ∀ m, m ∈ (step st' x).2 → m ∈ st'.2 ∨ P m) →
      ∀ m, m ∈ (l.foldl step st).2 → m ∈ st.2 ∨ P m := by
  intro l
  induction l with
  | nil => intro step st _ m hm; exact Or.inl hm
  | cons x xs ih =>
    intro step st h m hm
    rcases ih step (step st x) (fun st' y hy => h st' y (List.mem_cons_of_mem _ hy)) m hm with
      h1 | h1
    · exact h st x (List.mem_cons_self _ _) m h1
    · exact Or.inr h1

lemma mem_ite_ite {p q : Prop} [Decidable p] [Decidable q] {m a : Move}
    (hm : m ∈ (if p then [a] else if q then [a] else [])) : (p ∨ q) ∧ m = a := by
  split_ifs at hm with h1 h2
  · exact ⟨Or.inl h1, List.mem_singleton.mp hm⟩
  · exact ⟨Or.inr h2, List.mem_singleton.mp hm⟩
  · exact absurd hm (List.not_mem_nil m)

lemma pawnStep_ok {b : Board} {enemy : Char} {row col er ec : Int} {m : Move}
    (hm : m ∈ pawnStep b enemy row col er ec) :
    (b er ec = ('-','-') ∨ (b er ec).1 = enemy) ∧ m = Move.make (row, col) (er, ec) b := by
  unfold pawnStep at hm
  exact mem_ite_ite hm

/-- Every move appended by `get_pawn_moves` is a snapshot onto an in-range,
non-own, non-origin square. -/
lemma getPawnMoves_ok {b : Board} {t : String} {r c : Int} {m : Move}
    (ht : turnOK t) (hr0 : 0 ≤ r) (hr9 : r ≤ 9) (hc0 : 0 ≤ c) (hc8 : c ≤ 8)
    (hm : m ∈ getPawnMoves b t r c) : GenOK b (sideChar t) r c m := by
  rcases ht with ht | ht <;> subst ht
  · rw [getPawnMoves, if_pos rfl] at hm
    show GenOK b 'R' r c m
    rcases List.mem_append.mp hm with h | h
    rcases List.mem_append.mp h with h | h
    rcases List.mem_append.mp h with h | h
    · rcases mem_ite_nil h with ⟨hb, hstep⟩
      rcases pawnStep_ok hstep with ⟨hcell, rfl⟩
      refine ⟨r + 1, c, rfl, by omega, by omega, by omega, by omega, ?_, by omega⟩
      rcases hcell with hcell | hcell <;> rw [hcell] <;> decide
    · rcases mem_ite_nil h with ⟨hb, hstep⟩
      rcases pawnStep_ok hstep with ⟨hcell, rfl⟩
      refine ⟨r, c + 1, rfl, by omega, by omega, by omega, by omega, ?_, by omega⟩
      rcases hcell with hcell | hcell <;> rw [hcell] <;> decide
    · rcases mem_ite_nil h with ⟨hb, hstep⟩
      rcases pawnStep_ok hstep with ⟨hcell, rfl⟩
      refine ⟨r, c - 1, rfl, by omega, by omega, by omega, by omega, ?_, by omega⟩
      rcases hcell with hcell | hcell <;> rw [hcell] <;> decide
    · rcases mem_posDiag h with ⟨cc, hcc, hbody⟩
      simp only [diagnolCor, List.mem_cons, List.not_mem_nil, or_false] at hcc
      rcases hcc with rfl | rfl | rfl | rfl <;>
        · rcases mem_ite_nil hbody with ⟨hbnd, hpair⟩
          rcases mem_pair_ite hpair with ⟨hcell, rfl⟩
          refine ⟨_, _, rfl, by omega, by omega, by omega, by omega, ?_, by omega⟩
          rcases hcell with hcell | hcell <;> rw [hcell] <;> decide
  · rw [getPawnMoves, if_neg (by decide)] at hm
    show GenOK b 'B' r c m
    rcases List.mem_append.mp hm with h | h
    rcases List.mem_append.mp h with h | h
    rcases List.mem_append.mp h with h | h
    · rcases mem_ite_nil h with ⟨hb, hstep⟩
      rcases pawnStep_ok hstep with ⟨hcell, rfl⟩
      refine ⟨r - 1, c, rfl, by omega, by omega, by omega, by omega, ?_, by omega⟩
      rcases hcell with hcell | hcell <;> rw [hcell] <;> decide
    · rcases mem_ite_nil h with ⟨hb, hstep⟩
      rcases pawnStep_ok hstep with ⟨hcell, rfl⟩
      refine ⟨r, c + 1, rfl, by omega, by omega, by omega, by omega, ?_, by omega⟩
      rcases hcell with hcell | hcell <;> rw [hcell] <;> decide
    · rcases mem_ite_nil h with ⟨hb, hstep⟩
      rcases pawnStep_ok hstep with ⟨hcell, rfl⟩
      refine ⟨r, c - 1, rfl, by omega, by omega, by omega, by omega, ?_, by omega⟩
      rcases hcell with hcell | hcell <;> rw [hcell] <;> decide
    · rcases mem_posDiag h with ⟨cc, hcc, hbody⟩
      simp only [diagnolCor, List.mem_cons, List.not_mem_nil, or_false] at hcc
      rcases hcc with rfl | rfl | rfl | rfl <;>
        · rcases mem_ite_nil hbody with ⟨hbnd, hpair⟩
          rcases mem_pair_ite hpair with ⟨hcell, rfl⟩
          refine ⟨_, _, rfl, by omega, by omega, by omega, by omega, ?_, by omega⟩
          rcases hcell with hcell | hcell <;> rw [hcell] <;> decide

/-- Every move appended by the shared guard/general body is a snapshot onto an
in-range, non-own, non-origin square (inside the mover's palace). -/
lemma guardLike_ok {b : Board} {t : String} {r c : Int} {m : Move}
    (ht : turnOK t) (hm : m ∈ guardLike b t r c) : GenOK b (sideChar t) r c m := by
  rcases ht with ht | ht <;> subst ht
  · rw [guardLike, if_pos rfl] at hm
    show GenOK b 'R' r c m
    rcases List.mem_append.mp hm with h | h
    · rcases List.mem_flatMap.mp h with ⟨d, hd, hbody⟩
      simp only [directions, List.mem_cons, List.not_mem_nil, or_false] at hd
      rcases hd with rfl | rfl | rfl | rfl <;>
        · rcases mem_ite_nil hbody with ⟨hbnd, hin⟩
          rcases mem_ite_ite hin with ⟨hcell, rfl⟩
          refine ⟨_, _, rfl, by omega, by omega, by omega, by omega, ?_, by omega⟩
          rcases hcell with hcell | hcell <;> rw [hcell] <;> decide
    · rcases mem_posDiag h with ⟨cc, hcc, hbody⟩
      simp only [diagnolCor, List.mem_cons, List.not_mem_nil, or_false] at hcc
      rcases hcc with rfl | rfl | rfl | rfl <;>
        · rcases mem_ite_nil hbody with ⟨hbnd, hpair⟩
          rcases mem_pair_ite hpair with ⟨hcell, rfl⟩
          refine ⟨_, _, rfl, by omega, by omega, by omega, by omega, ?_, by omega⟩
          rcases hcell with hcell | hcell <;> rw [hcell] <;> decide
  · rw [guardLike, if_neg (by decide)] at hm
    show GenOK b 'B' r c m
    rcases List.mem_append.mp hm with h | h
    · rcases List.mem_flatMap.mp h with ⟨d, hd, hbody⟩
      simp only [directions, List.mem_cons, List.not_mem_nil, or_false] at hd
      rcases hd with rfl | rfl | rfl | rfl <;>
        · rcases mem_ite_nil hbody with ⟨hbnd, hin⟩
          rcases mem_ite_ite hin with ⟨hcell, rfl⟩
          refine ⟨_, _, rfl, by omega, by omega, by omega, by omega, ?_, by omega⟩
          rcases hcell with hcell | hcell <;> rw [hcell] <;> decide
    · rcases mem_posDiag h with ⟨cc, hcc, hbody⟩
      simp only [diagnolCor, List.mem_cons, List.not_mem_nil, or_false] at hcc
      rcases hcc with rfl | rfl | rfl | rfl <;>
        · rcases mem_ite_nil hbody with ⟨hbnd, hpair⟩
          rcases mem_pair_ite hpair with ⟨hcell, rfl⟩
          refine ⟨_, _, rfl, by omega, by omega, by omega, by omega, ?_, by omega⟩
          rcases hcell with hcell | hcell <;> rw [hcell] <;> decide

lemma horseHalf_ok {b : Board} {own : Char} {row col endRow endCol : Int}
    {dd : Int × Int} {m : Move} (hm : m ∈ horseHalf b own row col endRow endCol dd) :
    m = Move.make (row, col) (endRow + dd.1, endCol + dd.2) b ∧
    (0 ≤ endRow + dd.1 ∧ endRow + dd.1 ≤ 9 ∧ 0 ≤ endCol + dd.2 ∧ endCol + dd.2 ≤ 8) ∧
    (b (endRow + dd.1) (endCol + dd.2)).1 ≠ own := by
  unfold horseHalf at hm
  split_ifs at hm with h1 h2
  · exact ⟨List.mem_singleton.mp hm, h1, h2⟩
  all_goals exact absurd hm (List.not_mem_nil m)

/-- Every move appended by `get_horse_moves` is a snapshot onto an in-range,
non-own, non-origin square. -/
lemma getHorseMoves_ok {b : Board} {t : String} {r c : Int} {m : Move}
    (ht : turnOK t) (hm : m ∈ getHorseMoves b t r c) : GenOK b (sideChar t) r c m := by
  have hside : (if t = "RED" then 'R' else 'B') = sideChar t := rfl
  rw [getHorseMoves] at hm
  rw [hside] at hm
  rcases List.mem_flatMap.mp hm with ⟨tr, htr, hbody⟩
  simp only [horseTriples, List.mem_cons, List.not_mem_nil, or_false] at htr
  rcases htr with rfl | rfl | rfl | rfl <;>
    · rcases mem_ite_nil hbody with ⟨hbnd1, hin⟩
      split_ifs at hin with hblock
      · exact absurd hin (List.not_mem_nil m)
      · rcases List.mem_append.mp hin with h | h <;>
          · rcases horseHalf_ok h with ⟨rfl, hbnd2, hcell⟩
            exact ⟨_, _, rfl, by omega, by omega, by omega, by omega, hcell,
              by simp <;> omega⟩

lemma elephantHalf_ok {b : Board} {own : Char} {row col endRow endCol : Int}
    {dd : Int × Int} {m : Move} (hm : m ∈ elephantHalf b own row col endRow endCol dd) :
    m = Move.make (row, col) (endRow + dd.1 * 2, endCol + dd.2 * 2) b ∧
    (0 ≤ endRow + dd.1 * 2 ∧ endRow + dd.1 * 2 ≤ 9 ∧
      0 ≤ endCol + dd.2 * 2 ∧ endCol + dd.2 * 2 ≤ 8) ∧
    (b (endRow + dd.1 * 2) (endCol + dd.2 * 2)).1 ≠ own := by
  simp only [elephantHalf] at hm
  by_cases hb1 : 0 ≤ endRow + dd.1 ∧ endRow + dd.1 ≤ 9 ∧ 0 ≤ endCol + dd.2 ∧ endCol + dd.2 ≤ 8
  · rw [if_pos hb1, if_pos hb1] at hm
    by_cases hb2 : 0 ≤ endRow + dd.1 * 2 ∧ endRow + dd.1 * 2 ≤ 9 ∧
        0 ≤ endCol + dd.2 * 2 ∧ endCol + dd.2 * 2 ≤ 8
    · rw [if_pos hb2] at hm
      rcases mem_ite_nil hm with ⟨hp, hmem⟩
      exact ⟨List.mem_singleton.mp hmem, hb2, hp.2⟩
    · rw [if_neg hb2] at hm
      exact absurd hm (List.not_mem_nil m)
  · rw [if_neg hb1] at hm
    exact absurd hm (List.not_mem_nil m)

/-- Every move appended by `get_elephant_moves` is a snapshot onto an
in-range, non-own, non-origin square. -/
lemma getElephantMoves_ok {b : Board} {t : String} {r c : Int} {m : Move}
    (ht : turnOK t) (hm : m ∈ getElephantMoves b t r c) : GenOK b (sideChar t) r c m := by
  have hside : (if t = "RED" then 'R' else 'B') = sideChar t := rfl
  rw [getElephantMoves] at hm
  rw [hside] at hm
  rcases List.mem_flatMap.mp hm with ⟨tr, htr, hbody⟩
  simp only [horseTriples, List.mem_cons, List.not_mem_nil, or_false] at htr
  rcases htr with rfl | rfl | rfl | rfl <;>
    · rcases mem_ite_nil hbody with ⟨hbnd1, hin⟩
      split_ifs at hin with hblock
      · exact absurd hin (List.not_mem_nil m)
      · rcases List.mem_append.mp hin with h | h <;>
          · rcases elephantHalf_ok h with ⟨rfl, hbnd2, hcell⟩
            exact ⟨_, _, rfl, by omega, by omega, by omega, by omega, hcell,
              by simp <;> omega⟩

lemma rookRayStep_ok {b : Board} {own enemy : Char} {r c : Int} {d : Int × Int}
    (hd : d ∈ directions) (hown : own ≠ '-') (hen : enemy ≠ own) :
    ∀ st (x : Nat), x ∈ List.range' 1 9 → ∀ m,
      m ∈ (rookRayStep b own enemy r c d st x).2 → m ∈ st.2 ∨ GenOK b own r c m := by
  intro st x hx m hm
  have hx1 : 1 ≤ x := (List.mem_range'_1.mp hx).1
  have hx1i : (1 : Int) ≤ (x : Int) := by exact_mod_cast hx1
  simp only [rookRayStep] at hm
  split_ifs at hm with hbnd hmk h1 h2 h3
  · exact Or.inl hm
  · rcases List.mem_append.mp hm with h | h
    · exact Or.inl h
    · refine Or.inr ⟨_, _, (List.mem_singleton.mp h), hbnd.1, hbnd.2.1, hbnd.2.2.1,
        hbnd.2.2.2, by rw [h2]; exact fun hh => hown hh.symm, ?_⟩
      simp only [directions, List.mem_cons, List.not_mem_nil, or_false] at hd
      rcases hd with rfl | rfl | rfl | rfl <;> simp <;> omega
  · rcases List.mem_append.mp hm with h | h
    · exact Or.inl h
    · refine Or.inr ⟨_, _, (List.mem_singleton.mp h), hbnd.1, hbnd.2.1, hbnd.2.2.1,
        hbnd.2.2.2, by rw [h3]; exact hen, ?_⟩
      simp only [directions, List.mem_cons, List.not_mem_nil, or_false] at hd
      rcases hd with rfl | rfl | rfl | rfl <;> simp <;> omega
  all_goals exact Or.inl hm

lemma rookRay_ok {b : Board} {own enemy : Char} {r c : Int} {d : Int × Int}
    (hd : d ∈ directions) (hown : own ≠ '-') (hen : enemy ≠ own) {m : Move}
    (hm : m ∈ ((List.range' 1 9).foldl (rookRayStep b own enemy r c d) (0, [])).2) :
    GenOK b own r c m := by
  rcases foldl_ray_mem (GenOK b own r c) (List.range' 1 9) _ (0, [])
      (fun st x hx m' => rookRayStep_ok hd hown hen st x hx m') m hm with h | h
  · exact absurd h (List.not_mem_nil m)
  · exact h

lemma rookDiag_ok {b : Board} {enemy own : Char} {r c : Int} {m : Move}
    (hown : own ≠ '-') (hen : enemy ≠ own)
    (hm : m ∈ rookDiag b enemy r c) : GenOK b own r c m := by
  rcases mem_posDiag hm with ⟨cc, hcc, hbody⟩
  simp only [diagnolCor, List.mem_cons, List.not_mem_nil, or_false] at hcc
  rcases hcc with rfl | rfl | rfl | rfl <;>
    · rcases mem_ite_nil hbody with ⟨hbnd, hpair⟩
      rcases mem_pair_ite hpair with ⟨hcell, rfl⟩
      refine ⟨_, _, rfl, by omega, by omega, by omega, by omega, ?_, by omega⟩
      rcases hcell with hcell | hcell
      · rw [hcell]; exact fun hh => hown hh.symm
      · rw [hcell]; exact hen

/-- Every move appended by `get_rook_moves` is a snapshot onto an in-range,
non-own, non-origin square. -/
lemma getRookMoves_ok {b : Board} {t : String} {r c : Int} {m : Move}
    (ht : turnOK t) (hm : m ∈ getRookMoves b t r c) : GenOK b (sideChar t) r c m := by
  rcases ht with ht | ht <;> subst ht
  · rw [getRookMoves, if_pos rfl] at hm
    show GenOK b 'R' r c m
    rcases List.mem_flatMap.mp hm with ⟨d, hd, hbody⟩
    rcases List.mem_append.mp hbody with h | h
    · exact rookRay_ok hd (by decide) (by decide) h
    · exact rookDiag_ok (by decide) (by decide) h
  · rw [getRookMoves, if_neg (by decide), if_pos rfl] at hm
    show GenOK b 'B' r c m
    rcases List.mem_append.mp hm with h | h
    · rcases List.mem_flatMap.mp h with ⟨d, hd, hbody⟩
      exact rookRay_ok hd (by decide) (by decide) hbody
    · exact rookDiag_ok (by decide) (by decide) h

lemma cannonRayStep_ok {b : Board} {own enemy : Char} {r c : Int} {d : Int × Int}
    (hd : d ∈ directions) (hown : own ≠ '-') (hen : enemy ≠ own) :
    ∀ st (x : Nat), x ∈ List.range' 1 9 → ∀ m,
      m ∈ (cannonRayStep b own enemy r c d st x).2 → m ∈ st.2 ∨ GenOK b own r c m := by
  intro st x hx m hm
  have hx1 : 1 ≤ x := (List.mem_range'_1.mp hx).1
  have hx1i : (1 : Int) ≤ (x : Int) := by exact_mod_cast hx1
  simp only [cannonRayStep] at hm
  split_ifs at hm with hbnd h1 h2 h3 h4 h5 h6
  · exact Or.inl hm
  · exact Or.inl hm
  · exact Or.inl hm
  · rcases List.mem_append.mp hm with h | h
    · exact Or.inl h
    · refine Or.inr ⟨_, _, (List.mem_singleton.mp h), hbnd.1, hbnd.2.1, hbnd.2.2.1,
        hbnd.2.2.2, by rw [h4.2]; exact fun hh => hown hh.symm, ?_⟩
      simp only [directions, List.mem_cons, List.not_mem_nil, or_false] at hd
      rcases hd with rfl | rfl | rfl | rfl <;> simp <;> omega
  · rcases List.mem_append.mp hm with h | h
    · exact Or.inl h
    · refine Or.inr ⟨_, _, (List.mem_singleton.mp h), hbnd.1, hbnd.2.1, hbnd.2.2.1,
        hbnd.2.2.2, by rw [h5.2]; exact hen, ?_⟩
      simp only [directions, List.mem_cons, List.not_mem_nil, or_false] at hd
      rcases hd with rfl | rfl | rfl | rfl <;> simp <;> omega
  all_goals exact Or.inl hm

lemma cannonRay_ok {b : Board} {own enemy : Char} {r c : Int} {d : Int × Int}
    (hd : d ∈ directions) (hown : own ≠ '-') (hen : enemy ≠ own) {m : Move}
    (hm : m ∈ ((List.range' 1 9).foldl (cannonRayStep b own enemy r c d) (0, [])).2) :
    GenOK b own r c m := by
  rcases foldl_ray_mem (GenOK b own r c) (List.range' 1 9) _ (0, [])
      (fun st x hx m' => cannonRayStep_ok hd hown hen st x hx m') m hm with h | h
  · exact absurd h (List.not_mem_nil m)
  · exact h

lemma cannonDiag_ok {b : Board} {own : Char} {r c : Int} {m : Move}
    (hm : m ∈ cannonDiag b own r c) : GenOK b own r c m := by
  rcases mem_posDiag hm with ⟨cc, hcc, hbody⟩
  simp only [diagnolCor, List.mem_cons, List.not_mem_nil, or_false] at hcc
  rcases hcc with rfl | rfl | rfl | rfl <;>
    · rcases mem_ite_nil hbody with ⟨hbnd1, hin⟩
      rcases mem_ite_nil hin with ⟨hocc, hin2⟩
      rcases mem_ite_nil hin2 with ⟨hbnd2, hin3⟩
      rcases mem_ite_nil hin3 with ⟨hcell, hmem⟩
      rcases List.mem_singleton.mp hmem with rfl
      exact ⟨_, _, rfl, by omega, by omega, by omega, by omega, hcell, by omega⟩

/-- Every move appended by `get_cannon_moves` is a snapshot onto an in-range,
non-own, non-origin square. -/
lemma getCannonMoves_ok {b : Board} {t : String} {r c : Int} {m : Move}
    (ht : turnOK t) (hm : m ∈ getCannonMoves b t r c) : GenOK b (sideChar t) r c m := by
  rcases ht with ht | ht <;> subst ht
  · rw [getCannonMoves, if_pos rfl] at hm
    show GenOK b 'R' r c m
    rcases List.mem_append.mp hm with h | h
    · rcases List.mem_flatMap.mp h with ⟨d, hd, hbody⟩
      exact cannonRay_ok hd (by decide) (by decide) hbody
    · exact cannonDiag_ok h
  · rw [getCannonMoves, if_neg (by decide), if_pos rfl] at hm
    show GenOK b 'B' r c m
    rcases List.mem_append.mp hm with h | h
    · rcases List.mem_flatMap.mp h with ⟨d, hd, hbody⟩
      exact cannonRay_ok hd (by decide) (by decide) hbody
    · exact cannonDiag_ok h

/-- Every pseudo move returned by `get_all_possible_moves`: its origin is an
on-board square holding a piece of the side to move, and the move is a
snapshot onto an in-range, non-own, non-origin destination. -/
lemma getAllPossibleMovesB_ok {b : Board} {t : String} {m : Move}
    (ht : turnOK t) (hm : m ∈ getAllPossibleMovesB b t) :
    ∃ r c, 0 ≤ r ∧ r ≤ 9 ∧ 0 ≤ c ∧ c ≤ 8 ∧ (b r c).1 = sideChar t ∧
      GenOK b (sideChar t) r c m := by
  rcases List.mem_flatMap.mp hm with ⟨rn, hrn, h1⟩
  rcases List.mem_flatMap.mp h1 with ⟨cn, hcn, h2⟩
  rw [List.mem_range] at hrn hcn
  rcases mem_ite_nil h2 with ⟨hdisp, hpieces⟩
  have hr0 : (0 : Int) ≤ (rn : Int) := by positivity
  have hr9 : (rn : Int) ≤ 9 := by exact_mod_cast Nat.lt_succ_iff.mp hrn
  have hc0 : (0 : Int) ≤ (cn : Int) := by positivity
  have hc8 : (cn : Int) ≤ 8 := by exact_mod_cast Nat.lt_succ_iff.mp hcn
  have hcol : (b (rn : Int) (cn : Int)).1 = sideChar t := by
    rcases hdisp with ⟨hcell, hturn⟩ | ⟨hcell, hturn⟩ <;> rw [hcell, hturn] <;> rfl
  refine ⟨(rn : Int), (cn : Int), hr0, hr9, hc0, hc8, hcol, ?_⟩
  rcases List.mem_append.mp hpieces with h | h
  rcases List.mem_append.mp h with h | h
  rcases List.mem_append.mp h with h | h
  rcases List.mem_append.mp h with h | h
  rcases List.mem_append.mp h with h | h
  rcases List.mem_append.mp h with h | h
  · exact getPawnMoves_ok ht hr0 hr9 hc0 hc8 (mem_ite_nil h).2
  · exact getRookMoves_ok ht (mem_ite_nil h).2
  · exact getHorseMoves_ok ht (mem_ite_nil h).2
  · exact getCannonMoves_ok ht (mem_ite_nil h).2
  · exact getElephantMoves_ok ht (mem_ite_nil h).2
  · exact guardLike_ok ht (mem_ite_nil h).2
  · exact guardLike_ok ht (mem_ite_nil h).2

/-- Convenient form of `getAllPossibleMovesB_ok` in terms of the move's own
fields: snapshot pieces, destination bounds, destination not own-coloured,
origin own-coloured, and origin different from destination. -/
lemma moveFacts {b : Board} {t : String} {m : Move}
    (ht : turnOK t) (hm : m ∈ getAllPossibleMovesB b t) :
    m.pieceMoved = b m.startRow m.startCol ∧
    m.pieceCaptured = b m.endRow m.endCol ∧
    0 ≤ m.startRow ∧ m.startRow ≤ 9 ∧ 0 ≤ m.startCol ∧ m.startCol ≤ 8 ∧
    0 ≤ m.endRow ∧ m.endRow ≤ 9 ∧ 0 ≤ m.endCol ∧ m.endCol ≤ 8 ∧
    (b m.startRow m.startCol).1 = sideChar t ∧
    (b m.endRow m.endCol).1 ≠ sideChar t ∧
    ¬(m.startRow = m.endRow ∧ m.startCol = m.endCol) := by
  rcases getAllPossibleMovesB_ok ht hm with
    ⟨r, c, hr0, hr9, hc0, hc8, hcol, er, ec, hmk, he0, he9, hf0, hf8, hcell, hne⟩
  subst hmk
  exact ⟨rfl, rfl, hr0, hr9, hc0, hc8, he0, he9, hf0, hf8, hcol, hcell,
    fun hh => hne ⟨hh.1.symm, hh.2.symm⟩⟩

/-! ### Frame facts for the check-detection routines -/

lemma squareUnderAttack_fst (s : GameState) (r c : Int) :
    (squareUnderAttack s r c).1 = squareUnderAttackB s.board s.player_turn r c := rfl

lemma squareUnderAttack_snd {s : GameState} (ht : turnOK s.player_turn) (r c : Int) :
    (squareUnderAttack s r c).2 = s := by
  simp only [squareUnderAttack, setPlayerTurn, getAllPossibleMoves]
  cases s with
  | mk board gs log turn cm pr pb => simp [flipTurn_flipTurn ht]

lemma inCheck_fst (s : GameState) :
    (inCheck s).1 = inCheckB s.board s.player_turn := by
  rw [inCheck, inCheckB]
  cases hfind : scanCoords.find? fun p =>
      (s.board p.1 p.2 == ('R','K') && s.player_turn == "RED") ||
      (s.board p.1 p.2 == ('B','K') && s.player_turn == "BLUE") with
  | none => rfl
  | some p =>
    dsimp only
    split_ifs <;> rfl

lemma inCheck_snd {s : GameState} (ht : turnOK s.player_turn) :
    (inCheck s).2.board = s.board ∧ (inCheck s).2.player_turn = s.player_turn ∧
    (inCheck s).2.game_state = s.game_state ∧ (inCheck s).2.moveLog = s.moveLog ∧
    (inCheck s).2.checkmate = s.checkmate := by
  rw [inCheck]
  cases hfind : scanCoords.find? fun p =>
      (s.board p.1 p.2 == ('R','K') && s.player_turn == "RED") ||
      (s.board p.1 p.2 == ('B','K') && s.player_turn == "BLUE") with
  | none => exact ⟨rfl, rfl, rfl, rfl, rfl⟩
  | some p =>
    have hsa := squareUnderAttack_snd ht p.1 p.2
    split_ifs <;> simp [hsa]

lemma setPlayerTurn_setPlayerTurn {s : GameState} (ht : turnOK s.player_turn) :
    setPlayerTurn (setPlayerTurn s) = s := by
  simp only [setPlayerTurn]
  rw [flipTurn_flipTurn ht]

/-- When `test_move` is called with the coordinates of a generated move, it
finds a matching generated move, plays it on the board, and flips the turn. -/
lemma testMove_spec {s0 : GameState} {b : Board} {t : String} {m : Move}
    (hb : s0.board = b) (ht0 : s0.player_turn = t) (ht : turnOK t)
    (hm : m ∈ getAllPossibleMovesB b t) :
    testMove s0 (m.startRow, m.startCol) (m.endRow, m.endCol) =
      (true, setPlayerTurn { s0 with board := simBoardOf b m }) := by
  obtain ⟨hpm, hpc, _, _, _, _, _, _, _, _, _, _, hne⟩ := moveFacts ht hm
  rw [testMove]
  have hlist : getAllPossibleMoves s0 = getAllPossibleMovesB b t := by
    rw [getAllPossibleMoves, hb, ht0]
  rw [hlist, if_neg (by simp only [Prod.mk.injEq]; exact hne)]
  have hp : coordMatch (m.startRow, m.startCol) (m.endRow, m.endCol) m = true := by
    simp [coordMatch]
  have hsome : ((getAllPossibleMovesB b t).find?
      (coordMatch (m.startRow, m.startCol) (m.endRow, m.endCol))).isSome :=
    List.find?_isSome.mpr ⟨m, hm, hp⟩
  obtain ⟨m', hm'⟩ := Option.isSome_iff_exists.mp hsome
  rw [hm']
  have hpred := List.find?_some hm'
  simp only [coordMatch, Bool.and_eq_true, beq_iff_eq] at hpred
  obtain ⟨⟨⟨e1, e2⟩, e3⟩, e4⟩ := hpred
  obtain ⟨hpm', _⟩ := moveFacts ht (List.mem_of_find?_eq_some hm')
  have hpmeq : m'.pieceMoved = m.pieceMoved := by rw [hpm', e1, e2, ← hpm]
  have hbd : boardSet (boardSet s0.board m'.startRow m'.startCol ('-','-'))
      m'.endRow m'.endCol m'.pieceMoved = simBoardOf b m := by
    rw [hb, e1, e2, e3, e4, hpmeq]; rfl
  dsimp only
  rw [hbd]

lemma take_len_append {A : Type} (xs ys : List A) (i : Nat) (h : xs.length = i) :
    (xs ++ ys).take i = xs := by
  subst h; exact List.take_left xs ys

lemma drop_len_append {A : Type} (xs ys : List A) (i : Nat) (h : xs.length = i) :
    (xs ++ ys).drop i = ys := by
  subst h; exact List.drop_left xs ys

/-- Characterization of the `get_valid_moves` loop: processing the indices
below `i` of `cur` (whose first `i` entries agree with the pseudo-move list)
keeps exactly the moves passing the check filter, and restores board, turn,
game state, move log and checkmate flag. -/
lemma getValidMovesLoop_spec {s : GameState} (ht : turnOK s.player_turn) :
    ∀ (i : Nat) (cur : List Move) (s' : GameState),
      s'.board = s.board → s'.player_turn = s.player_turn →
      s'.game_state = s.game_state → s'.moveLog = s.moveLog →
      s'.checkmate = s.checkmate →
      i ≤ (getAllPossibleMovesB s.board s.player_turn).length →
      cur.take i = (getAllPossibleMovesB s.board s.player_turn).take i →
      (∀ m ∈ cur, m ∈ getAllPossibleMovesB s.board s.player_turn) →
      (getValidMovesLoop i cur s').1 =
        ((getAllPossibleMovesB s.board s.player_turn).take i).filter
          (keepB s.board s.player_turn) ++ cur.drop i ∧
      (getValidMovesLoop i cur s').2.board = s.board ∧
      (getValidMovesLoop i cur s').2.player_turn = s.player_turn ∧
      (getValidMovesLoop i cur s').2.game_state = s.game_state ∧
      (getValidMovesLoop i cur s').2.moveLog = s.moveLog ∧
      (getValidMovesLoop i cur s').2.checkmate = s.checkmate := by
  intro i
  induction i with
  | zero =>
    intro cur s' h1 h2 h3 h4 h5 _ _ _
    exact ⟨by simp [getValidMovesLoop], h1, h2, h3, h4, h5⟩
  | succ i ih =>
    intro cur s' h1 h2 h3 h4 h5 hlen htake hsub
    have hi : i < (getAllPossibleMovesB s.board s.player_turn).length :=
      Nat.lt_of_succ_le hlen
    have hcl : i + 1 ≤ cur.length := by
      have hlt := congrArg List.length htake
      simp only [List.length_take] at hlt
      omega
    have hcuri : cur[i]? = (getAllPossibleMovesB s.board s.player_turn)[i]? := by
      have h := congrArg (fun l => l[i]?) htake
      simpa [List.getElem?_take_of_lt (Nat.lt_succ_self i)] using h
    obtain ⟨m, hmEq⟩ : ∃ m, (getAllPossibleMovesB s.board s.player_turn)[i]? = some m :=
      ⟨_, List.getElem?_eq_getElem hi⟩
    have hmem : m ∈ getAllPossibleMovesB s.board s.player_turn := List.getElem?_mem hmEq
    obtain ⟨hpm, hpc, _⟩ := moveFacts ht hmem
    have hS : turnOK s'.player_turn := h2 ▸ ht
    have hmin : min i (i + 1) = i := by omega
    have htake_i : cur.take i = (getAllPossibleMovesB s.board s.player_turn).take i := by
      have h := congrArg (fun l => l.take i) htake
      simpa [List.take_take, hmin] using h
    simp only [getValidMovesLoop]
    rw [hcuri, hmEq]
    dsimp only
    rw [testMove_spec h1 h2 ht hmem]
    dsimp only
    set S : GameState := { s' with board := simBoardOf s.board m } with hSdef
    have hSt : turnOK S.player_turn := hS
    rw [@setPlayerTurn_setPlayerTurn S hSt]
    have hfst : (inCheck S).1 = inCheckB (simBoardOf s.board m) s.player_turn := by
      rw [inCheck_fst, hSdef]
      dsimp only
      rw [h2]
    obtain ⟨hib, hit, hig, hil, hic⟩ := @inCheck_snd S hSt
    rw [hfst]
    have hrev : boardSet (boardSet (inCheck S).2.board m.startRow m.startCol m.pieceMoved)
        m.endRow m.endCol m.pieceCaptured = s.board := by
      rw [hib]
      show boardSet (boardSet (simBoardOf s.board m) m.startRow m.startCol m.pieceMoved)
        m.endRow m.endCol m.pieceCaptured = s.board
      exact revert_boardSet s.board m hpm hpc
    rw [hrev]
    set mv2 : List Move :=
      if inCheckB (simBoardOf s.board m) s.player_turn = some true
      then cur.eraseIdx i else cur with hmv2
    have hsub2 : ∀ m' ∈ mv2, m' ∈ getAllPossibleMovesB s.board s.player_turn := by
      intro m' hm'
      rw [hmv2] at hm'
      split_ifs at hm' with hchk
      · exact hsub m' (List.eraseIdx_subset _ _ hm')
      · exact hsub m' hm'
    have htake2 : mv2.take i = (getAllPossibleMovesB s.board s.player_turn).take i := by
      rw [hmv2]
      split_ifs with hchk
      · rw [List.eraseIdx_eq_take_drop_succ,
          take_len_append _ _ i (by rw [List.length_take]; omega)]
        exact htake_i
      · exact htake_i
    obtain ⟨ihl, ihb, iht2, ihg, ihlog, ihc⟩ :=
      ih mv2 { (inCheck S).2 with board := s.board } rfl (by rw [hit]; exact h2)
        (by rw [hig]; exact h3) (by rw [hil]; exact h4) (by rw [hic]; exact h5)
        (Nat.le_of_succ_le hlen) htake2 hsub2
    refine ⟨?_, ihb, iht2, ihg, ihlog, ihc⟩
    rw [ihl]
    have hcurget : cur[i] = m := by
      have h := (List.getElem?_eq_getElem (l := cur) (by omega : i < cur.length)).symm.trans
        (hcuri.trans hmEq)
      exact Option.some.inj h
    rw [List.take_succ, hmEq, List.filter_append]
    by_cases hchk : inCheckB (simBoardOf s.board m) s.player_turn = some true
    · have hkeep : keepB s.board s.player_turn m = false := by
        simp [keepB, hchk]
      have hmv2e : mv2 = cur.eraseIdx i := by rw [hmv2, if_pos hchk]
      have hdrop : mv2.drop i = cur.drop (i + 1) := by
        rw [hmv2e, List.eraseIdx_eq_take_drop_succ,
          drop_len_append _ _ i (by rw [List.length_take]; omega)]
      rw [hdrop]
      simp [hkeep]
    · have hkeep : keepB s.board s.player_turn m = true := by
        simp [keepB, hchk]
      have hmv2e : mv2 = cur := by rw [hmv2, if_neg hchk]
      have hdrop : mv2.drop i = m :: cur.drop (i + 1) := by
        rw [hmv2e, List.drop_eq_getElem_cons (by omega : i < cur.length), hcurget]
      rw [hdrop]
      simp [hkeep]

/-- `get_valid_moves` returns exactly the pseudo moves passing the self-check
filter, and it restores board, turn, game state, log and checkmate flag. -/
lemma getValidMoves_spec {s : GameState} (ht : turnOK s.player_turn) :
    (getValidMoves s).1 =
      (getAllPossibleMovesB s.board s.player_turn).filter (keepB s.board s.player_turn) ∧
    (getValidMoves s).2.board = s.board ∧
    (getValidMoves s).2.player_turn = s.player_turn ∧
    (getValidMoves s).2.game_state = s.game_state ∧
    (getValidMoves s).2.moveLog = s.moveLog ∧
    (getValidMoves s).2.checkmate = s.checkmate := by
  have h := getValidMovesLoop_spec ht (getAllPossibleMovesB s.board s.player_turn).length
    (getAllPossibleMovesB s.board s.player_turn) s rfl rfl rfl rfl rfl le_rfl rfl
    (fun _ hm => hm)
  simpa [getValidMoves, getAllPossibleMoves, List.take_length, List.drop_length] using h

lemma getValidMoves_fst {s : GameState} (ht : turnOK s.player_turn) :
    (getValidMoves s).1 = legalMovesB s.board s.player_turn :=
  (getValidMoves_spec ht).1

lemma mem_scanCoords {r c : Int} :
    (r, c) ∈ scanCoords ↔ 0 ≤ r ∧ r ≤ 9 ∧ 0 ≤ c ∧ c ≤ 8 := by
  constructor
  · intro h
    rw [scanCoords] at h
    rcases List.mem_flatMap.mp h with ⟨rn, hrn, h2⟩
    rcases List.mem_map.mp h2 with ⟨cn, hcn, heq⟩
    rw [List.mem_range] at hrn hcn
    rw [Prod.mk.injEq] at heq
    obtain ⟨e1, e2⟩ := heq
    subst e1
    subst e2
    simp only [Int.ofNat_eq_natCast] at *
    refine ⟨?_, ?_, ?_, ?_⟩ <;> omega
  · intro h
    obtain ⟨h1, h2, h3, h4⟩ := h
    rw [scanCoords]
    refine List.mem_flatMap.mpr ⟨r.toNat, List.mem_range.mpr (by omega), ?_⟩
    refine List.mem_map.mpr ⟨c.toNat, List.mem_range.mpr (by omega), ?_⟩
    rw [Prod.mk.injEq]
    simp only [Int.ofNat_eq_natCast]
    constructor <;> omega

/-- When the side to move has a general somewhere on the scanned grid,
`in_check` reports the attack status of the first such square. -/
lemma inCheckB_some {b : Board} {t : String} (ht : turnOK t)
    (hex : ∃ p ∈ scanCoords, b p.1 p.2 = (sideChar t, 'K')) :
    ∃ p ∈ scanCoords, b p.1 p.2 = (sideChar t, 'K') ∧
      inCheckB b t = some (squareUnderAttackB b t p.1 p.2) := by
  obtain ⟨q, hq, hqg⟩ := hex
  have hpred : ((b q.1 q.2 == ('R','K') && t == "RED") ||
      (b q.1 q.2 == ('B','K') && t == "BLUE")) = true := by
    rcases ht with rfl | rfl <;> simp_all [sideChar]
  have hsome : (scanCoords.find? fun p =>
      (b p.1 p.2 == ('R','K') && t == "RED") ||
      (b p.1 p.2 == ('B','K') && t == "BLUE")).isSome :=
    List.find?_isSome.mpr ⟨q, hq, hpred⟩
  obtain ⟨p, hp⟩ := Option.isSome_iff_exists.mp hsome
  have hmem := List.mem_of_find?_eq_some hp
  have hpr := List.find?_some hp
  have hcell : b p.1 p.2 = (sideChar t, 'K') := by
    rcases ht with rfl | rfl <;> simp_all [sideChar]
  refine ⟨p, hmem, hcell, ?_⟩
  rw [inCheckB, hp]
  rfl

/-- C8: `get_valid_moves` and `square_under_attack` hand back the board grid
and the side-to-move flag exactly as they were at entry: the simulate-and-
revert legality loop and the temporary turn flip leave no visible mutation of
board or turn. -/
theorem C8_frame_preserved (s : GameState) (r c : Int) (ht : turnOK s.player_turn) :
    (getValidMoves s).2.board = s.board ∧
    (getValidMoves s).2.player_turn = s.player_turn ∧
    (squareUnderAttack s r c).2.board = s.board ∧
    (squareUnderAttack s r c).2.player_turn = s.player_turn := by
  obtain ⟨_, hb, ht2, _⟩ := getValidMoves_spec ht
  rw [squareUnderAttack_snd ht]
  exact ⟨hb, ht2, rfl, rfl⟩

theorem C8_frame_preserved_witness :
    (getValidMoves initState).2.board = initState.board ∧
    (getValidMoves initState).2.player_turn = initState.player_turn ∧
    (squareUnderAttack initState 1 4).2.board = initState.board ∧
    (squareUnderAttack initState 1 4).2.player_turn = initState.player_turn :=
  C8_frame_preserved initState 1 4 (Or.inl rfl)

/-- C10: no pseudo move returned by `get_all_possible_moves` lands on a
square whose occupant has the moving side's colour character, and every
origin and destination lies inside the 10-row by 9-column grid. -/
theorem C10_pseudo_dest_and_bounds (b : Board) (t : String) (m : Move)
    (ht : turnOK t) (hm : m ∈ getAllPossibleMovesB b t) :
    (b m.endRow m.endCol).1 ≠ sideChar t ∧
    0 ≤ m.startRow ∧ m.startRow ≤ 9 ∧ 0 ≤ m.startCol ∧ m.startCol ≤ 8 ∧
    0 ≤ m.endRow ∧ m.endRow ≤ 9 ∧ 0 ≤ m.endCol ∧ m.endCol ≤ 8 := by
  obtain ⟨_, _, h1, h2, h3, h4, h5, h6, h7, h8, _, hdest, _⟩ := moveFacts ht hm
  exact ⟨hdest, h1, h2, h3, h4, h5, h6, h7, h8⟩

/-- C9: with the game unfinished, a call with equal origin and destination is
accepted as a pass: it returns true and flips the side to move, no matter
what the named square holds. -/
theorem C9_noop_is_pass (s : GameState) (p : Int × Int) (ht : turnOK s.player_turn)
    (hg : s.game_state = "UNFINISHED") :
    (makeMove s p p).1 = true ∧
    (makeMove s p p).2.player_turn = flipTurn s.player_turn ∧
    (makeMove s p p).2.board = s.board ∧
    (makeMove s p p).2.moveLog = s.moveLog ∧
    (makeMove s p p).2.game_state = s.game_state := by
  obtain ⟨_, hb2, ht2, hg2, hl2, _⟩ := getValidMoves_spec ht
  rw [makeMove]
  dsimp only
  rw [if_pos (by rw [hg2]; exact hg), if_pos rfl]
  refine ⟨rfl, ?_, hb2, hl2, hg2⟩
  show flipTurn (getValidMoves s).2.player_turn = flipTurn s.player_turn
  rw [ht2]

theorem C9_noop_is_pass_witness :
    (makeMove initState (3, 0) (3, 0)).1 = true ∧
    (makeMove initState (3, 0) (3, 0)).2.player_turn = flipTurn initState.player_turn ∧
    (makeMove initState (3, 0) (3, 0)).2.board = initState.board ∧
    (makeMove initState (3, 0) (3, 0)).2.moveLog = initState.moveLog ∧
    (makeMove initState (3, 0) (3, 0)).2.game_state = initState.game_state :=
  C9_noop_is_pass initState (3, 0) (Or.inl rfl) rfl

/-- C5: a `make_move` call that names coordinates matching no current legal
move, or that arrives when the game is already decided, returns false and
leaves board, move history, side to move and game state untouched. -/
theorem C5_reject_no_partial_commit (s : GameState) (a c : Int × Int)
    (ht : turnOK s.player_turn)
    (hrej : s.game_state ≠ "UNFINISHED" ∨
      (a ≠ c ∧ ∀ m ∈ (getValidMoves s).1, coordMatch a c m = false)) :
    (makeMove s a c).1 = false ∧
    (makeMove s a c).2.board = s.board ∧
    (makeMove s a c).2.moveLog = s.moveLog ∧
    (makeMove s a c).2.player_turn = s.player_turn ∧
    (makeMove s a c).2.game_state = s.game_state := by
  obtain ⟨_, hb2, ht2, hg2, hl2, _⟩ := getValidMoves_spec ht
  rw [makeMove]
  dsimp only
  rcases hrej with hterm | ⟨hne, hnomatch⟩
  · rw [if_neg (by rw [hg2]; exact hterm)]
    exact ⟨rfl, hb2, hl2, ht2, hg2⟩
  · by_cases hgs : (getValidMoves s).2.game_state = "UNFINISHED"
    · rw [if_pos hgs, if_neg hne]
      have hfind : (getValidMoves s).1.find? (coordMatch a c) = none :=
        List.find?_eq_none.mpr fun m hm => by rw [hnomatch m hm]; exact Bool.false_ne_true
      rw [hfind]
      exact ⟨rfl, hb2, hl2, ht2, hg2⟩
    · rw [if_neg hgs]
      exact ⟨rfl, hb2, hl2, ht2, hg2⟩

/-- C1: every move returned by `get_valid_moves` comes from
`get_all_possible_moves`, and playing it leaves no opponent pseudo move on
the resulting board whose destination is the moving side's general. -/
theorem C1_valid_subset_and_safe (s : GameState) (m : Move)
    (ht : turnOK s.player_turn)
    (hRK : ∃ p ∈ scanCoords, s.board p.1 p.2 = ('R', 'K') ∧
        ∀ q ∈ scanCoords, s.board q.1 q.2 = ('R', 'K') → q = p)
    (hBK : ∃ p ∈ scanCoords, s.board p.1 p.2 = ('B', 'K') ∧
        ∀ q ∈ scanCoords, s.board q.1 q.2 = ('B', 'K') → q = p)
    (hm : m ∈ (getValidMoves s).1) :
    m ∈ getAllPossibleMoves s ∧
    ∀ r c, 0 ≤ r → r ≤ 9 → 0 ≤ c → c ≤ 8 →
      simBoardOf s.board m r c = (sideChar s.player_turn, 'K') →
      ¬ ∃ mo ∈ getAllPossibleMovesB (simBoardOf s.board m) (flipTurn s.player_turn),
          mo.endRow = r ∧ mo.endCol = c := by
  rw [(getValidMoves_spec ht).1] at hm
  obtain ⟨hmemB, hkeep⟩ := List.mem_filter.mp hm
  refine ⟨hmemB, ?_⟩
  obtain ⟨hpm, hpc, hs0, hs9, hc0m, hc8m, he0, he9, hf0, hf8, hown, hdest, hnepair⟩ :=
    moveFacts ht hmemB
  obtain ⟨pG, hpGmem, hpGcell, hpGuniq⟩ : ∃ p ∈ scanCoords,
      s.board p.1 p.2 = (sideChar s.player_turn, 'K') ∧
      ∀ q ∈ scanCoords, s.board q.1 q.2 = (sideChar s.player_turn, 'K') → q = p := by
    rcases ht with h | h <;> rw [h]
    · simpa [sideChar] using hRK
    · simpa [sideChar] using hBK
  have hemp : ('-','-') ≠ ((sideChar s.player_turn, 'K') : Cell) := by
    intro hh
    rw [Prod.mk.injEq] at hh
    exact absurd hh.2 (by decide)
  have hb_end : simBoardOf s.board m m.endRow m.endCol = m.pieceMoved := by
    rw [simBoardOf]; exact boardSet_same _ _ _ _
  have hb_other : ∀ r' c', ¬(r' = m.endRow ∧ c' = m.endCol) →
      ¬(r' = m.startRow ∧ c' = m.startCol) →
      simBoardOf s.board m r' c' = s.board r' c' := by
    intro r' c' h1 h2
    rw [simBoardOf, boardSet_other _ _ _ _ h1, boardSet_other _ _ _ _ h2]
  have hb_start : ∀ r' c', ¬(r' = m.endRow ∧ c' = m.endCol) →
      r' = m.startRow → c' = m.startCol →
      simBoardOf s.board m r' c' = ('-','-') := by
    intro r' c' h1 e1 e2
    subst e1; subst e2
    rw [simBoardOf, boardSet_other _ _ _ _ h1]
    exact boardSet_same _ _ _ _
  have hkey : ∃ pN : Int × Int, 0 ≤ pN.1 ∧ pN.1 ≤ 9 ∧ 0 ≤ pN.2 ∧ pN.2 ≤ 8 ∧
      simBoardOf s.board m pN.1 pN.2 = (sideChar s.player_turn, 'K') ∧
      ∀ r' c', 0 ≤ r' → r' ≤ 9 → 0 ≤ c' → c' ≤ 8 →
        simBoardOf s.board m r' c' = (sideChar s.player_turn, 'K') → (r', c') = pN := by
    by_cases hstart : m.startRow = pG.1 ∧ m.startCol = pG.2
    · refine ⟨(m.endRow, m.endCol), he0, he9, hf0, hf8, ?_, ?_⟩
      · rw [hb_end, hpm, hstart.1, hstart.2, hpGcell]
      · intro r' c' hr0' hr9' hc0' hc8' hcell'
        by_cases hEnd : r' = m.endRow ∧ c' = m.endCol
        · rw [Prod.mk.injEq]; exact hEnd
        · by_cases hSt : r' = m.startRow ∧ c' = m.startCol
          · rw [hb_start r' c' hEnd hSt.1 hSt.2] at hcell'
            exact absurd hcell' hemp
          · rw [hb_other r' c' hEnd hSt] at hcell'
            have hq := hpGuniq (r', c') (mem_scanCoords.mpr ⟨hr0', hr9', hc0', hc8'⟩) hcell'
            rw [Prod.mk.injEq] at hq
            exact absurd ⟨hq.1.trans hstart.1.symm, hq.2.trans hstart.2.symm⟩ hSt
    · have hnEnd : ¬(pG.1 = m.endRow ∧ pG.2 = m.endCol) := by
        intro ⟨u1, u2⟩
        apply hdest
        rw [← u1, ← u2, hpGcell]
      have hnStart : ¬(pG.1 = m.startRow ∧ pG.2 = m.startCol) := by
        intro ⟨u1, u2⟩
        exact hstart ⟨u1.symm, u2.symm⟩
      obtain ⟨hg0, hg9, hg2, hg8⟩ := mem_scanCoords.mp
        (show ((pG.1, pG.2) : Int × Int) ∈ scanCoords from hpGmem)
      refine ⟨pG, hg0, hg9, hg2, hg8, ?_, ?_⟩
      · rw [hb_other pG.1 pG.2 hnEnd hnStart, hpGcell]
      · intro r' c' hr0' hr9' hc0' hc8' hcell'
        by_cases hEnd : r' = m.endRow ∧ c' = m.endCol
        · rw [hEnd.1, hEnd.2, hb_end, hpm] at hcell'
          have hq := hpGuniq (m.startRow, m.startCol)
            (mem_scanCoords.mpr ⟨hs0, hs9, hc0m, hc8m⟩) hcell'
          rw [Prod.mk.injEq] at hq
          exact absurd ⟨hq.1, hq.2⟩ hstart
        · by_cases hSt : r' = m.startRow ∧ c' = m.startCol
          · rw [hb_start r' c' hEnd hSt.1 hSt.2] at hcell'
            exact absurd hcell' hemp
          · rw [hb_other r' c' hEnd hSt] at hcell'
            exact hpGuniq (r', c') (mem_scanCoords.mpr ⟨hr0', hr9', hc0', hc8'⟩) hcell'
  obtain ⟨pN, hN0, hN9, hN2, hN8, hNcell, hNuniq⟩ := hkey
  have hNmem : pN ∈ scanCoords := mem_scanCoords.mpr ⟨hN0, hN9, hN2, hN8⟩
  obtain ⟨pF, hpFmem, hpFcell, hicEq⟩ := inCheckB_some ht ⟨pN, hNmem, hNcell⟩
  obtain ⟨hF0, hF9, hF2, hF8⟩ := mem_scanCoords.mp
    (show ((pF.1, pF.2) : Int × Int) ∈ scanCoords from hpFmem)
  have hFN : (pF.1, pF.2) = pN := hNuniq pF.1 pF.2 hF0 hF9 hF2 hF8 hpFcell
  have hne2 : inCheckB (simBoardOf s.board m) s.player_turn ≠ some true := by
    intro hh
    rw [keepB, hh] at hkeep
    simp at hkeep
  have hatt : squareUnderAttackB (simBoardOf s.board m) s.player_turn pF.1 pF.2 = false := by
    cases hv : squareUnderAttackB (simBoardOf s.board m) s.player_turn pF.1 pF.2 with
    | false => rfl
    | true => exact absurd (hicEq.trans (by rw [hv])) hne2
  intro r c hr0 hr9 hc0 hc8 hcell hex
  obtain ⟨mo, hmo, hmor, hmoc⟩ := hex
  have hrc : ((r, c) : Int × Int) = pN := hNuniq r c hr0 hr9 hc0 hc8 hcell
  have hrF : r = pF.1 ∧ c = pF.2 := by
    rw [← hFN, Prod.mk.injEq] at hrc
    exact hrc
  rw [squareUnderAttackB] at hatt
  have hfalse := List.any_eq_false.mp hatt mo hmo
  apply hfalse
  simp only [Bool.and_eq_true, beq_iff_eq]
  exact ⟨hmor.trans hrF.1, hmoc.trans hrF.2⟩

lemma setPlayerTurn_board (z : GameState) : (setPlayerTurn z).board = z.board := rfl

lemma setPlayerTurn_log (z : GameState) : (setPlayerTurn z).moveLog = z.moveLog := rfl

lemma setPlayerTurn_gs (z : GameState) : (setPlayerTurn z).game_state = z.game_state := rfl

lemma setPlayerTurn_turn (z : GameState) :
    (setPlayerTurn z).player_turn = flipTurn z.player_turn := rfl

lemma setPlayerTurn_cm (z : GameState) : (setPlayerTurn z).checkmate = z.checkmate := rfl

/-- The effect of a successful non-pass `make_move`: the matched move's cells
are written, the move is logged, and the final game state, turn and checkmate
flag follow the checkmate test on the resulting position.  Note the turn: in
the checkmate branch it returns to the mover (the flip that the non-checkmate
branch performs is skipped there, and the final unconditional flip undoes the
first one). -/
lemma makeMove_success {s : GameState} {a c : Int × Int} {m : Move}
    (ht : turnOK s.player_turn) (hg : s.game_state = "UNFINISHED") (hne : a ≠ c)
    (hfind : (legalMovesB s.board s.player_turn).find? (coordMatch a c) = some m) :
    (makeMove s a c).1 = true ∧
    (makeMove s a c).2.board = simBoardOf s.board m ∧
    (makeMove s a c).2.moveLog = s.moveLog ++ [m] ∧
    (((legalMovesB (simBoardOf s.board m) (flipTurn s.player_turn)).length = 0 ∧
        inCheckB (simBoardOf s.board m) (flipTurn s.player_turn) = some true) →
      (makeMove s a c).2.game_state =
        (if flipTurn s.player_turn = "RED" then "BLUE_WON" else "RED_WON") ∧
      (makeMove s a c).2.player_turn = s.player_turn ∧
      (makeMove s a c).2.checkmate = true) ∧
    (¬((legalMovesB (simBoardOf s.board m) (flipTurn s.player_turn)).length = 0 ∧
        inCheckB (simBoardOf s.board m) (flipTurn s.player_turn) = some true) →
      (makeMove s a c).2.game_state = "UNFINISHED" ∧
      (makeMove s a c).2.player_turn = flipTurn s.player_turn ∧
      (makeMove s a c).2.checkmate = false) := by
  obtain ⟨hlist, hb0, ht0, hg0, hl0, hc00⟩ := getValidMoves_spec ht
  rw [makeMove]
  dsimp only
  rw [if_pos (by rw [hg0]; exact hg), if_neg hne, getValidMoves_fst ht, hfind]
  dsimp only
  rw [hb0, hl0]
  have hsimeq : boardSet (boardSet s.board m.startRow m.startCol ('-','-'))
      m.endRow m.endCol m.pieceMoved = simBoardOf s.board m := rfl
  rw [hsimeq]
  set S2 : GameState :=
    setPlayerTurn { (getValidMoves s).2 with board := simBoardOf s.board m, moveLog := s.moveLog ++ [m] } with hS2
  have hS2b : S2.board = simBoardOf s.board m := by rw [hS2]; rfl
  have hS2t : S2.player_turn = flipTurn s.player_turn := by
    rw [hS2, setPlayerTurn_turn]
    dsimp only
    exact congrArg flipTurn ht0
  have hS2g : S2.game_state = s.game_state := by
    rw [hS2, setPlayerTurn_gs]
    exact hg0
  have hS2l : S2.moveLog = s.moveLog ++ [m] := by rw [hS2]; rfl
  have ht2 : turnOK S2.player_turn := by rw [hS2t]; exact turnOK_flip ht
  obtain ⟨hlist2, hb2, htt2, hgg2, hll2, hcc2⟩ := getValidMoves_spec ht2
  have hlist2e : (getValidMoves S2).1 =
      legalMovesB (simBoardOf s.board m) (flipTurn s.player_turn) := by
    rw [hlist2, hS2b, hS2t]
    exact rfl
  rw [hlist2e]
  have hICb : (getValidMoves S2).2.board = simBoardOf s.board m := hb2.trans hS2b
  have hICt : (getValidMoves S2).2.player_turn = flipTurn s.player_turn := htt2.trans hS2t
  have hICg : (getValidMoves S2).2.game_state = s.game_state := hgg2.trans hS2g
  have hICl : (getValidMoves S2).2.moveLog = s.moveLog ++ [m] := hll2.trans hS2l
  have hic1 : (inCheck (getValidMoves S2).2).1 =
      inCheckB (simBoardOf s.board m) (flipTurn s.player_turn) := by
    rw [inCheck_fst, hICb, hICt]
  rw [hic1]
  have htIC : turnOK (getValidMoves S2).2.player_turn := by
    rw [hICt]; exact turnOK_flip ht
  obtain ⟨icb, ict, icg, icl, icc⟩ := inCheck_snd htIC
  have icb2 : (inCheck (getValidMoves S2).2).2.board = simBoardOf s.board m :=
    icb.trans hICb
  have ict2 : (inCheck (getValidMoves S2).2).2.player_turn = flipTurn s.player_turn :=
    ict.trans hICt
  have icg2 : (inCheck (getValidMoves S2).2).2.game_state = s.game_state :=
    icg.trans hICg
  have icl2 : (inCheck (getValidMoves S2).2).2.moveLog = s.moveLog ++ [m] :=
    icl.trans hICl
  generalize hICeq : (inCheck (getValidMoves S2).2).2 = IC2 at icb2 ict2 icg2 icl2 ⊢
  generalize hXeq : (getValidMoves S2).2 = X2 at hICb hICt hICg hICl ⊢
  by_cases hz : (legalMovesB (simBoardOf s.board m) (flipTurn s.player_turn)).length = 0
  · rw [if_pos hz]
    by_cases hchk : inCheckB (simBoardOf s.board m) (flipTurn s.player_turn) = some true
    · rw [if_pos hchk,
        if_pos (show ({ IC2 with checkmate := true } : GameState).checkmate = true from rfl)]
      refine ⟨rfl, ?_, ?_, ?_, ?_⟩
      · split_ifs <;> exact icb2
      · split_ifs <;> exact icl2
      · intro _
        refine ⟨?_, ?_, ?_⟩
        · by_cases hred : flipTurn s.player_turn = "RED"
          · rw [if_pos hred,
              if_pos (show ({ IC2 with checkmate := true } : GameState).player_turn = "RED"
                from ict2.trans hred)]
            exact rfl
          · rw [if_neg hred,
              if_neg (show ¬({ IC2 with checkmate := true } : GameState).player_turn = "RED"
                from fun hh => hred (ict2.symm.trans hh))]
            exact rfl
        · split_ifs <;>
            · show flipTurn IC2.player_turn = s.player_turn
              rw [ict2, flipTurn_flipTurn ht]
        · split_ifs <;> rfl
      · intro hnot
        exact absurd ⟨hz, hchk⟩ hnot
    · rw [if_neg hchk,
        if_neg (show ¬({ IC2 with checkmate := false } : GameState).checkmate = true from
          Bool.false_ne_true)]
      refine ⟨rfl, icb2, icl2, ?_, ?_⟩
      · rintro ⟨_, hchk2⟩
        exact absurd hchk2 hchk
      · intro _
        refine ⟨?_, ?_, rfl⟩
        · show IC2.game_state = "UNFINISHED"
          rw [icg2]; exact hg
        · show flipTurn (flipTurn IC2.player_turn) = flipTurn s.player_turn
          rw [ict2, flipTurn_flipTurn (turnOK_flip ht)]
  · rw [if_neg hz,
      if_neg (show ¬({ X2 with checkmate := false } : GameState).checkmate = true from
        Bool.false_ne_true)]
    refine ⟨rfl, hICb, hICl, ?_, ?_⟩
    · rintro ⟨hz2, _⟩
      exact absurd hz2 hz
    · intro _
      refine ⟨?_, ?_, rfl⟩
      · show X2.game_state = "UNFINISHED"
        rw [hICg]; exact hg
      · show flipTurn (flipTurn X2.player_turn) = flipTurn s.player_turn
        rw [hICt, flipTurn_flipTurn (turnOK_flip ht)]

/-- C2: after `make_move` successfully applies a non-pass move and the side
now to move has zero legal moves, the game becomes RED_WON or BLUE_WON
crediting the mover when that side is in check, and stays UNFINISHED when it
is not. -/
theorem C2_zero_moves_checkmate_or_unfinished (s : GameState) (a c : Int × Int)
    (m : Move) (ht : turnOK s.player_turn) (hg : s.game_state = "UNFINISHED")
    (hne : a ≠ c)
    (hfind : (legalMovesB s.board s.player_turn).find? (coordMatch a c) = some m)
    (hz : (legalMovesB (simBoardOf s.board m) (flipTurn s.player_turn)).length = 0) :
    (makeMove s a c).1 = true ∧
    (inCheckB (simBoardOf s.board m) (flipTurn s.player_turn) = some true →
      (makeMove s a c).2.game_state =
        (if s.player_turn = "RED" then "RED_WON" else "BLUE_WON")) ∧
    (inCheckB (simBoardOf s.board m) (flipTurn s.player_turn) ≠ some true →
      (makeMove s a c).2.game_state = "UNFINISHED") := by
  obtain ⟨h1, _, _, hcm, hncm⟩ := makeMove_success ht hg hne hfind
  refine ⟨h1, ?_, ?_⟩
  · intro hchk
    obtain ⟨hgs, _, _⟩ := hcm ⟨hz, hchk⟩
    rw [hgs]
    rcases ht with hrt | hrt <;> rw [hrt] <;> simp [flipTurn]
  · intro hnchk
    obtain ⟨hgs, _, _⟩ := hncm fun hh => hnchk hh.2
    exact hgs

set_option maxRecDepth 40000 in
set_option maxHeartbeats 2000000 in
/-- C3, evaluated at the failing input: the checkmating move is accepted and
ends the game, yet the side to move after the call equals the side that
moved (RED), not its opposite - the turn is net-flipped twice, not once. -/
theorem C3_checkmate_branch_turn_unchanged :
    mateState.player_turn = "RED" ∧
    (makeMove mateState (5, 0) (9, 0)).1 = true ∧
    (makeMove mateState (5, 0) (9, 0)).2.game_state = "RED_WON" ∧
    (makeMove mateState (5, 0) (9, 0)).2.player_turn = "RED" := by
  refine ⟨rfl, ?_, ?_, ?_⟩ <;> decide

set_option maxRecDepth 40000 in
set_option maxHeartbeats 2000000 in
/-- C4, counterexample: applying the checkmating move and undoing it leaves
the side to move at BLUE although it was RED before the move. -/
theorem C4_undo_after_checkmate_counterexample :
    mateState.player_turn = "RED" ∧
    (makeMove mateState (5, 0) (9, 0)).1 = true ∧
    (undoMove (makeMove mateState (5, 0) (9, 0)).2).player_turn = "BLUE" ∧
    (undoMove (makeMove mateState (5, 0) (9, 0)).2).player_turn ≠ mateState.player_turn := by
  refine ⟨rfl, ?_, ?_, ?_⟩ <;> decide

/-- C4 amended: a successful non-pass move followed by `undo_move` restores
the board grid, the side to move and the move-history length, provided the
move does not deliver checkmate; a checkmating move skips one of the turn
flips, so the turn is not restored there (see the counterexample). -/
theorem C4_make_undo_roundtrip (s : GameState) (a c : Int × Int) (m : Move)
    (ht : turnOK s.player_turn) (hg : s.game_state = "UNFINISHED") (hne : a ≠ c)
    (hfind : (legalMovesB s.board s.player_turn).find? (coordMatch a c) = some m)
    (hnotmate : ¬((legalMovesB (simBoardOf s.board m) (flipTurn s.player_turn)).length = 0 ∧
        inCheckB (simBoardOf s.board m) (flipTurn s.player_turn) = some true)) :
    (makeMove s a c).1 = true ∧
    (undoMove (makeMove s a c).2).board = s.board ∧
    (undoMove (makeMove s a c).2).player_turn = s.player_turn ∧
    (undoMove (makeMove s a c).2).moveLog.length = s.moveLog.length := by
  obtain ⟨h1, hb, hl, _, hncm⟩ := makeMove_success ht hg hne hfind
  obtain ⟨hgs, hturn, _⟩ := hncm hnotmate
  have hmm : m ∈ getAllPossibleMovesB s.board s.player_turn := by
    have h2 := List.mem_of_find?_eq_some hfind
    exact (List.mem_filter.mp h2).1
  obtain ⟨hpm, hpc, _⟩ := moveFacts ht hmm
  refine ⟨h1, ?_⟩
  generalize hF : (makeMove s a c).2 = F at hb hl hturn ⊢
  rw [undoMove, hl, List.getLast?_concat]
  dsimp only
  refine ⟨?_, ?_, ?_⟩
  · show boardSet (boardSet F.board m.startRow m.startCol m.pieceMoved)
      m.endRow m.endCol m.pieceCaptured = s.board
    rw [hb]
    exact revert_boardSet s.board m hpm hpc
  · show flipTurn F.player_turn = s.player_turn
    rw [hturn, flipTurn_flipTurn ht]
  · show ((s.moveLog ++ [m]).dropLast).length = s.moveLog.length
    rw [List.dropLast_concat]

lemma pawnStep_mem_iff {b : Board} {enemy : Char} {row col er ec : Int} {m : Move}
    (hen : enemy = 'B' ∨ enemy = 'R') :
    m ∈ pawnStep b enemy row col er ec ↔
      ((b er ec = ('-','-') ∨ (b er ec).1 = enemy) ∧
        m = Move.make (row, col) (er, ec) b) := by
  constructor
  · exact pawnStep_ok
  · rintro ⟨hcell, rfl⟩
    rw [pawnStep]
    rcases hcell with hcell | hcell
    · rw [if_pos hcell]
      exact List.mem_singleton.mpr rfl
    · have hne : ¬ b er ec = ('-','-') := by
        intro hh
        rw [hh] at hcell
        rcases hen with rfl | rfl <;> exact absurd hcell (by decide)
      rw [if_neg hne, if_pos hcell]
      exact List.mem_singleton.mpr rfl

/-- C7 amended: a soldier's pseudo moves are exactly one step forward (toward
the opponent) and one step sideways either way, each onto a square that is
empty or carries the enemy colour character.  The palace-diagonal branch of
the source can never fire - its position list names the mover's own palace
while its destination bound requires the opposing palace - so no diagonal
and no backward soldier move is ever generated. -/
theorem C7_pawn_moves_exactly (b : Board) (t : String) (r c : Int) (m : Move)
    (ht : turnOK t) :
    m ∈ getPawnMoves b t r c ↔
      (0 ≤ r + pawnDir t ∧ r + pawnDir t ≤ 9 ∧
        (b (r + pawnDir t) c = ('-','-') ∨ (b (r + pawnDir t) c).1 = pawnEnemy t) ∧
        m = Move.make (r, c) (r + pawnDir t, c) b) ∨
      (0 ≤ c + 1 ∧ c + 1 ≤ 8 ∧
        (b r (c + 1) = ('-','-') ∨ (b r (c + 1)).1 = pawnEnemy t) ∧
        m = Move.make (r, c) (r, c + 1) b) ∨
      (0 ≤ c - 1 ∧ c - 1 ≤ 8 ∧
        (b r (c - 1) = ('-','-') ∨ (b r (c - 1)).1 = pawnEnemy t) ∧
        m = Move.make (r, c) (r, c - 1) b) := by
  rcases ht with ht | ht <;> subst ht
  · rw [getPawnMoves, if_pos rfl,
      show pawnDir "RED" = 1 from rfl, show pawnEnemy "RED" = 'B' from rfl]
    constructor
    · intro hm
      rcases List.mem_append.mp hm with h | h
      rcases List.mem_append.mp h with h | h
      rcases List.mem_append.mp h with h | h
      · rcases mem_ite_nil h with ⟨hb1, hstep⟩
        rcases pawnStep_ok hstep with ⟨hcell, rfl⟩
        exact Or.inl ⟨hb1.1, hb1.2, hcell, rfl⟩
      · rcases mem_ite_nil h with ⟨hb1, hstep⟩
        rcases pawnStep_ok hstep with ⟨hcell, rfl⟩
        exact Or.inr (Or.inl ⟨hb1.1, hb1.2, hcell, rfl⟩)
      · rcases mem_ite_nil h with ⟨hb1, hstep⟩
        rcases pawnStep_ok hstep with ⟨hcell, rfl⟩
        exact Or.inr (Or.inr ⟨hb1.1, hb1.2, hcell, rfl⟩)
      · rcases List.mem_flatMap.mp h with ⟨i, hi, hbody⟩
        rcases mem_ite_nil hbody with ⟨⟨hri, hci⟩, hinner⟩
        rcases List.mem_flatMap.mp hinner with ⟨cc, hcc, hcbody⟩
        simp only [redPalacePos, List.mem_cons, List.not_mem_nil, or_false] at hi
        simp only [diagnolCor, List.mem_cons, List.not_mem_nil, or_false] at hcc
        rcases mem_ite_nil hcbody with ⟨hbnd, _⟩
        exfalso
        rcases hi with rfl | rfl | rfl | rfl | rfl <;>
          rcases hcc with rfl | rfl | rfl | rfl <;>
          · dsimp only at hri hbnd
            omega
    · intro hd
      rcases hd with ⟨hb1, hb2, hcell, rfl⟩ | ⟨hb1, hb2, hcell, rfl⟩ | ⟨hb1, hb2, hcell, rfl⟩
      · refine List.mem_append.mpr (Or.inl (List.mem_append.mpr (Or.inl
          (List.mem_append.mpr (Or.inl ?_)))))
        rw [if_pos ⟨hb1, hb2⟩]
        exact (pawnStep_mem_iff (Or.inl rfl)).mpr ⟨hcell, rfl⟩
      · refine List.mem_append.mpr (Or.inl (List.mem_append.mpr (Or.inl
          (List.mem_append.mpr (Or.inr ?_)))))
        rw [if_pos ⟨hb1, hb2⟩]
        exact (pawnStep_mem_iff (Or.inl rfl)).mpr ⟨hcell, rfl⟩
      · refine List.mem_append.mpr (Or.inl (List.mem_append.mpr (Or.inr ?_)))
        rw [if_pos ⟨hb1, hb2⟩]
        exact (pawnStep_mem_iff (Or.inl rfl)).mpr ⟨hcell, rfl⟩
  · rw [getPawnMoves, if_neg (by decide),
      show pawnDir "BLUE" = -1 from rfl, show pawnEnemy "BLUE" = 'R' from rfl,
      show r + (-1 : Int) = r - 1 from by omega]
    constructor
    · intro hm
      rcases List.mem_append.mp hm with h | h
      rcases List.mem_append.mp h with h | h
      rcases List.mem_append.mp h with h | h
      · rcases mem_ite_nil h with ⟨hb1, hstep⟩
        rcases pawnStep_ok hstep with ⟨hcell, rfl⟩
        exact Or.inl ⟨hb1.1, hb1.2, hcell, rfl⟩
      · rcases mem_ite_nil h with ⟨hb1, hstep⟩
        rcases pawnStep_ok hstep with ⟨hcell, rfl⟩
        exact Or.inr (Or.inl ⟨hb1.1, hb1.2, hcell, rfl⟩)
      · rcases mem_ite_nil h with ⟨hb1, hstep⟩
        rcases pawnStep_ok hstep with ⟨hcell, rfl⟩
        exact Or.inr (Or.inr ⟨hb1.1, hb1.2, hcell, rfl⟩)
      · rcases List.mem_flatMap.mp h with ⟨i, hi, hbody⟩
        rcases mem_ite_nil hbody with ⟨⟨hri, hci⟩, hinner⟩
        rcases List.mem_flatMap.mp hinner with ⟨cc, hcc, hcbody⟩
        simp only [bluePalacePos, List.mem_cons, List.not_mem_nil, or_false] at hi
        simp only [diagnolCor, List.mem_cons, List.not_mem_nil, or_false] at hcc
        rcases mem_ite_nil hcbody with ⟨hbnd, _⟩
        exfalso
        rcases hi with rfl | rfl | rfl | rfl | rfl <;>
          rcases hcc with rfl | rfl | rfl | rfl <;>
          · dsimp only at hri hbnd
            omega
    · intro hd
      rcases hd with ⟨hb1, hb2, hcell, rfl⟩ | ⟨hb1, hb2, hcell, rfl⟩ | ⟨hb1, hb2, hcell, rfl⟩
      · refine List.mem_append.mpr (Or.inl (List.mem_append.mpr (Or.inl
          (List.mem_append.mpr (Or.inl ?_)))))
        rw [if_pos ⟨hb1, hb2⟩]
        exact (pawnStep_mem_iff (Or.inr rfl)).mpr ⟨hcell, rfl⟩
      · refine List.mem_append.mpr (Or.inl (List.mem_append.mpr (Or.inl
          (List.mem_append.mpr (Or.inr ?_)))))
        rw [if_pos ⟨hb1, hb2⟩]
        exact (pawnStep_mem_iff (Or.inr rfl)).mpr ⟨hcell, rfl⟩
      · refine List.mem_append.mpr (Or.inl (List.mem_append.mpr (Or.inr ?_)))
        rw [if_pos ⟨hb1, hb2⟩]
        exact (pawnStep_mem_iff (Or.inr rfl)).mpr ⟨hcell, rfl⟩

/-- C7, counterexample: a RED soldier standing on the opposing palace point
(7,3) with the diagonal target (8,4) free receives no diagonal pseudo move -
the soldier palace-diagonal rule of the claim never fires in the code. -/
theorem C7_no_soldier_diagonal_counterexample :
    boardOfRows pawnDiagRows 7 3 = ('R','P') ∧
    boardOfRows pawnDiagRows 8 4 = ('-','-') ∧
    ∀ mo ∈ getPawnMoves (boardOfRows pawnDiagRows) "RED" 7 3,
      ¬(mo.endRow = 8 ∧ mo.endCol = 4) := by
  refine ⟨rfl, rfl, ?_⟩
  decide

/-- C6, counterexample: with a proper (non-cannon) screen at (0,2), the RED
cannon at (0,0) is given the move to (0,5) although that square holds the
BLUE cannon - `get_cannon_moves` does append a move whose destination is a
cannon. -/
theorem C6_cannon_captures_cannon_counterexample :
    boardOfRows cannonRows 0 5 = ('B','C') ∧
    Move.make (0, 0) (0, 5) (boardOfRows cannonRows) ∈
      getCannonMoves (boardOfRows cannonRows) "RED" 0 0 := by
  refine ⟨rfl, ?_⟩
  decide

lemma rayInB_mono {r c : Int} {d : Int × Int} (hd : d ∈ directions)
    (hr0 : 0 ≤ r) (hr9 : r ≤ 9) (hc0 : 0 ≤ c) (hc8 : c ≤ 8)
    {i k : Int} (h1 : 1 ≤ k) (h2 : k ≤ i) (hi : rayInB r c d i) : rayInB r c d k := by
  obtain ⟨a1, a2, a3, a4⟩ := hi
  simp only [directions, List.mem_cons, List.not_mem_nil, or_false] at hd
  rcases hd with rfl | rfl | rfl | rfl <;>
    · dsimp only [rayInB] at *
      refine ⟨?_, ?_, ?_, ?_⟩ <;> omega

/-- Invariant of the cannon's sliding scan: every appended move lands `i`
steps out with a legitimate screen, and the `mark` flag describes the prefix
scanned so far (0: all on-board steps so far empty; 1: a unique first piece
was found and it is not a cannon). -/
lemma cannonRayFold_inv (b : Board) (own enemy : Char) (r c : Int) (d : Int × Int)
    (hd : d ∈ directions) (hr0 : 0 ≤ r) (hr9 : r ≤ 9) (hc0 : 0 ≤ c) (hc8 : c ≤ 8)
    (hcells : ∀ r' c', 0 ≤ r' → r' ≤ 9 → 0 ≤ c' → c' ≤ 8 →
      b r' c' = ('-','-') ∨ (b r' c').1 = 'R' ∨ (b r' c').1 = 'B') :
    ∀ n : Nat,
      (∀ m ∈ ((List.range' 1 n).foldl (cannonRayStep b own enemy r c d) (0, [])).2,
        ∃ i : Int, 1 ≤ i ∧ m = Move.make (r, c) (r + d.1 * i, c + d.2 * i) b ∧
          screenOK b r c d i) ∧
      (((List.range' 1 n).foldl (cannonRayStep b own enemy r c d) (0, [])).1 = 0 →
        ∀ k : Int, 1 ≤ k → k ≤ (n : Int) → rayInB r c d k →
          rayCell b r c d k = ('-','-')) ∧
      (((List.range' 1 n).foldl (cannonRayStep b own enemy r c d) (0, [])).1 = 1 →
        ∃ j : Int, 1 ≤ j ∧ j ≤ (n : Int) ∧ rayCell b r c d j ≠ ('-','-') ∧
          (rayCell b r c d j).2 ≠ 'C' ∧
          ∀ k : Int, 1 ≤ k → k < j → rayInB r c d k →
            rayCell b r c d k = ('-','-')) := by
  intro n
  induction n with
  | zero =>
    refine ⟨?_, ?_, ?_⟩
    · intro m hm
      exact absurd hm (List.not_mem_nil m)
    · intro _ k hk1 hk2 _
      omega
    · intro hmk
      simp at hmk
  | succ n ih =>
    obtain ⟨ihacc, ih0, ih1⟩ := ih
    rw [List.range'_1_concat, List.foldl_concat]
    set ST := (List.range' 1 n).foldl (cannonRayStep b own enemy r c d) (0, []) with hST
    simp only [cannonRayStep]
    by_cases hbnd : 0 ≤ r + d.1 * ((1 + n : Nat) : Int) ∧ r + d.1 * ((1 + n : Nat) : Int) ≤ 9 ∧
        0 ≤ c + d.2 * ((1 + n : Nat) : Int) ∧ c + d.2 * ((1 + n : Nat) : Int) ≤ 8
    case neg =>
      rw [if_neg hbnd]
      refine ⟨ihacc, ?_, ?_⟩
      · intro hmk k hk1 hk2 hkB
        by_cases hkn : k ≤ (n : Int)
        · exact ih0 hmk k hk1 hkn hkB
        · exfalso
          apply hbnd
          have hkeq : k = ((1 + n : Nat) : Int) := by push_cast; push_cast at hk2; omega
          rw [← hkeq]
          exact hkB
      · intro hmk
        obtain ⟨j, hj1, hj2, hj3, hj4, hj5⟩ := ih1 hmk
        exact ⟨j, hj1, by push_cast; push_cast at hj2; omega, hj3, hj4, hj5⟩
    case pos =>
      rw [if_pos hbnd]
      have hinB : rayInB r c d ((1 + n : Nat) : Int) := hbnd
      have hcellWf := hcells _ _ hbnd.1 hbnd.2.1 hbnd.2.2.1 hbnd.2.2.2
      by_cases h1 : (b (r + d.1 * ((1 + n : Nat) : Int)) (c + d.2 * ((1 + n : Nat) : Int))).1 ≠ '-' ∧
          ST.1 = 0
      · rw [if_pos h1]
        by_cases h2 : (b (r + d.1 * ((1 + n : Nat) : Int)) (c + d.2 * ((1 + n : Nat) : Int))).2 = 'C'
        · rw [if_pos h2]
          refine ⟨ihacc, ?_, ?_⟩
          · intro hmk
            simp at hmk
          · intro hmk
            simp at hmk
        · rw [if_neg h2]
          refine ⟨ihacc, ?_, ?_⟩
          · intro hmk
            simp at hmk
          · intro _
            refine ⟨((1 + n : Nat) : Int), by push_cast; omega, by push_cast; omega, ?_, h2, ?_⟩
            · intro hh
              apply h1.1
              rw [rayCell] at hh
              rw [hh]
            · intro k hk1 hk2 hkB
              exact ih0 h1.2 k hk1 (by push_cast at hk2 ⊢; omega) hkB
      · rw [if_neg h1]
        by_cases h3 : b (r + d.1 * ((1 + n : Nat) : Int)) (c + d.2 * ((1 + n : Nat) : Int)) = ('-','-') ∧
            ST.1 = 0
        · rw [if_pos h3]
          refine ⟨ihacc, ?_, ?_⟩
          · intro _ k hk1 hk2 hkB
            by_cases hkn : k ≤ (n : Int)
            · exact ih0 h3.2 k hk1 hkn hkB
            · have hkeq : k = ((1 + n : Nat) : Int) := by push_cast; push_cast at hk2; omega
              rw [rayCell, hkeq]
              exact h3.1
          · intro hmk
            simp at hmk
        · rw [if_neg h3]
          by_cases h4 : ST.1 = 1 ∧ b (r + d.1 * ((1 + n : Nat) : Int)) (c + d.2 * ((1 + n : Nat) : Int)) = ('-','-')
          · rw [if_pos h4]
            obtain ⟨j, hj1, hj2, hj3, hj4, hj5⟩ := ih1 h4.1
            refine ⟨?_, ?_, ?_⟩
            · intro m hm
              rcases List.mem_append.mp hm with hmem | hmem
              · exact ihacc m hmem
              · refine ⟨((1 + n : Nat) : Int), by push_cast; omega,
                  List.mem_singleton.mp hmem, ?_⟩
                refine ⟨j, hj1, by push_cast; omega, hj3, hj4, ?_⟩
                intro k hk1 hk2
                exact hj5 k hk1 hk2
                  (rayInB_mono hd hr0 hr9 hc0 hc8 hk1 (by push_cast; omega) hinB)
            · intro hmk
              simp at hmk
            · intro _
              exact ⟨j, hj1, by push_cast; omega, hj3, hj4, hj5⟩
          · rw [if_neg h4]
            by_cases h5 : ST.1 = 1 ∧ (b (r + d.1 * ((1 + n : Nat) : Int)) (c + d.2 * ((1 + n : Nat) : Int))).1 = enemy
            · rw [if_pos h5]
              obtain ⟨j, hj1, hj2, hj3, hj4, hj5⟩ := ih1 h5.1
              refine ⟨?_, ?_, ?_⟩
              · intro m hm
                rcases List.mem_append.mp hm with hmem | hmem
                · exact ihacc m hmem
                · refine ⟨((1 + n : Nat) : Int), by push_cast; omega,
                    List.mem_singleton.mp hmem, ?_⟩
                  refine ⟨j, hj1, by push_cast; omega, hj3, hj4, ?_⟩
                  intro k hk1 hk2
                  exact hj5 k hk1 hk2
                    (rayInB_mono hd hr0 hr9 hc0 hc8 hk1 (by push_cast; omega) hinB)
              · intro hmk
                simp at hmk
              · intro hmk
                simp at hmk
            · rw [if_neg h5]
              by_cases h6 : ST.1 = 1 ∧ (b (r + d.1 * ((1 + n : Nat) : Int)) (c + d.2 * ((1 + n : Nat) : Int))).1 = own
              · rw [if_pos h6]
                refine ⟨ihacc, ?_, ?_⟩
                · intro hmk
                  simp at hmk
                · intro hmk
                  simp at hmk
              · rw [if_neg h6]
                refine ⟨ihacc, ?_, ?_⟩
                · intro hmk k hk1 hk2 hkB
                  by_cases hkn : k ≤ (n : Int)
                  · exact ih0 hmk k hk1 hkn hkB
                  · exfalso
                    rcases hcellWf with hw | hw | hw
                    · exact h3 ⟨hw, hmk⟩
                    · exact h1 ⟨by rw [hw]; decide, hmk⟩
                    · exact h1 ⟨by rw [hw]; decide, hmk⟩
                · intro hmk
                  obtain ⟨j, hj1, hj2, hj3, hj4, hj5⟩ := ih1 hmk
                  exact ⟨j, hj1, by push_cast; push_cast at hj2; omega, hj3, hj4, hj5⟩

/-- C6 (amended): every orthogonal move appended by `get_cannon_moves` jumps a
proper screen: the destination lies `n ≥ 1` steps along one of the four
orthogonal directions, and strictly between origin and destination there is a
first nonempty square whose piece is not a cannon, all earlier squares being
empty. (The second half of the original claim — that the destination is never a
cannon — is refuted separately.) -/
theorem C6_cannon_screen (b : Board) (t : String) (r c : Int) (m : Move)
    (hr0 : 0 ≤ r) (hr9 : r ≤ 9) (hc0 : 0 ≤ c) (hc8 : c ≤ 8)
    (hcells : ∀ r' c', 0 ≤ r' → r' ≤ 9 → 0 ≤ c' → c' ≤ 8 →
      b r' c' = ('-','-') ∨ (b r' c').1 = 'R' ∨ (b r' c').1 = 'B')
    (hm : m ∈ getCannonMoves b t r c)
    (horth : m.endRow = r ∨ m.endCol = c) :
    ∃ d ∈ directions, ∃ n : Int, 1 ≤ n ∧
      m.endRow = r + d.1 * n ∧ m.endCol = c + d.2 * n ∧ screenOK b r c d n := by
  have main : ∀ own enemy : Char,
      m ∈ (directions.flatMap fun d =>
        ((List.range' 1 9).foldl (cannonRayStep b own enemy r c d) (0, [])).2) ++
        cannonDiag b own r c →
      ∃ d ∈ directions, ∃ n : Int, 1 ≤ n ∧
        m.endRow = r + d.1 * n ∧ m.endCol = c + d.2 * n ∧ screenOK b r c d n := by
    intro own enemy hmem
    rcases List.mem_append.mp hmem with hray | hdiag
    · obtain ⟨d, hd, hmf⟩ := List.mem_flatMap.mp hray
      obtain ⟨i, hi1, hmeq, hscr⟩ :=
        (cannonRayFold_inv b own enemy r c d hd hr0 hr9 hc0 hc8 hcells 9).1 m hmf
      subst hmeq
      exact ⟨d, hd, i, hi1, rfl, rfl, hscr⟩
    · exfalso
      rw [cannonDiag] at hdiag
      obtain ⟨i, _, hmi⟩ := List.mem_flatMap.mp hdiag
      by_cases hp : r = i.1 ∧ c = i.2
      · rw [if_pos hp] at hmi
        obtain ⟨cc, hcc, hmc⟩ := List.mem_flatMap.mp hmi
        simp only [diagnolCor, List.mem_cons, List.not_mem_nil, or_false] at hcc
        dsimp only at hmc
        split_ifs at hmc
        all_goals first
          | exact absurd hmc (List.not_mem_nil m)
          | (have hmeq := List.mem_singleton.mp hmc
             subst hmeq
             simp only [Move.make] at horth
             rcases hcc with rfl | rfl | rfl | rfl <;> rcases horth with h | h <;> omega)
      · rw [if_neg hp] at hmi
        exact absurd hmi (List.not_mem_nil m)
  rw [getCannonMoves] at hm
  by_cases ht1 : t = "RED"
  · rw [if_pos ht1] at hm
    exact main 'R' 'B' hm
  · rw [if_neg ht1] at hm
    by_cases ht2 : t = "BLUE"
    · rw [if_pos ht2] at hm
      exact main 'B' 'R' hm
    · rw [if_neg ht2] at hm
      exact absurd hm (List.not_mem_nil m)

lemma cellsWf_of_scan {b : Board}
    (h : ∀ p ∈ scanCoords, b p.1 p.2 = ('-','-') ∨ (b p.1 p.2).1 = 'R' ∨ (b p.1 p.2).1 = 'B') :
    ∀ r' c', 0 ≤ r' → r' ≤ 9 → 0 ≤ c' → c' ≤ 8 →
      b r' c' = ('-','-') ∨ (b r' c').1 = 'R' ∨ (b r' c').1 = 'B' :=
  fun r' c' h0 h9 hc0 hc8 => h (r', c') (mem_scanCoords.mpr ⟨h0, h9, hc0, hc8⟩)

set_option maxRecDepth 40000 in
set_option maxHeartbeats 4000000 in
theorem C1_valid_subset_and_safe_witness :
    Move.mk 1 4 0 4 ('R','K') ('-','-') ∈ getAllPossibleMoves twoKingsState ∧
    ∀ r c, 0 ≤ r → r ≤ 9 → 0 ≤ c → c ≤ 8 →
      simBoardOf twoKingsState.board (Move.mk 1 4 0 4 ('R','K') ('-','-')) r c =
        (sideChar twoKingsState.player_turn, 'K') →
      ¬ ∃ mo ∈ getAllPossibleMovesB
            (simBoardOf twoKingsState.board (Move.mk 1 4 0 4 ('R','K') ('-','-')))
            (flipTurn twoKingsState.player_turn),
          mo.endRow = r ∧ mo.endCol = c :=
  C1_valid_subset_and_safe twoKingsState (Move.mk 1 4 0 4 ('R','K') ('-','-'))
    (Or.inl rfl) (by decide) (by decide) (by decide)

set_option maxRecDepth 40000 in
set_option maxHeartbeats 4000000 in
theorem C2_zero_moves_checkmate_or_unfinished_witness :
    (makeMove mateState (5, 0) (9, 0)).1 = true ∧
    (inCheckB (simBoardOf mateState.board (Move.mk 5 0 9 0 ('R','R') ('-','-')))
        (flipTurn mateState.player_turn) = some true →
      (makeMove mateState (5, 0) (9, 0)).2.game_state =
        (if mateState.player_turn = "RED" then "RED_WON" else "BLUE_WON")) ∧
    (inCheckB (simBoardOf mateState.board (Move.mk 5 0 9 0 ('R','R') ('-','-')))
        (flipTurn mateState.player_turn) ≠ some true →
      (makeMove mateState (5, 0) (9, 0)).2.game_state = "UNFINISHED") :=
  C2_zero_moves_checkmate_or_unfinished mateState (5, 0) (9, 0)
    (Move.mk 5 0 9 0 ('R','R') ('-','-'))
    (Or.inl rfl) rfl (by decide) (by decide) (by decide)

set_option maxRecDepth 40000 in
set_option maxHeartbeats 4000000 in
theorem C4_make_undo_roundtrip_witness :
    (makeMove twoKingsState (1, 4) (2, 4)).1 = true ∧
    (undoMove (makeMove twoKingsState (1, 4) (2, 4)).2).board = twoKingsState.board ∧
    (undoMove (makeMove twoKingsState (1, 4) (2, 4)).2).player_turn =
      twoKingsState.player_turn ∧
    (undoMove (makeMove twoKingsState (1, 4) (2, 4)).2).moveLog.length =
      twoKingsState.moveLog.length :=
  C4_make_undo_roundtrip twoKingsState (1, 4) (2, 4)
    (Move.mk 1 4 2 4 ('R','K') ('-','-'))
    (Or.inl rfl) rfl (by decide) (by decide) (by decide)

set_option maxRecDepth 40000 in
set_option maxHeartbeats 4000000 in
theorem C5_reject_no_partial_commit_witness :
    (makeMove twoKingsState (0, 0) (5, 5)).1 = false ∧
    (makeMove twoKingsState (0, 0) (5, 5)).2.board = twoKingsState.board ∧
    (makeMove twoKingsState (0, 0) (5, 5)).2.moveLog = twoKingsState.moveLog ∧
    (makeMove twoKingsState (0, 0) (5, 5)).2.player_turn = twoKingsState.player_turn ∧
    (makeMove twoKingsState (0, 0) (5, 5)).2.game_state = twoKingsState.game_state :=
  C5_reject_no_partial_commit twoKingsState (0, 0) (5, 5)
    (Or.inl rfl) (Or.inr ⟨by decide, by decide⟩)

set_option maxRecDepth 40000 in
set_option maxHeartbeats 4000000 in
theorem C6_cannon_screen_witness :
    ∃ d ∈ directions, ∃ n : Int, 1 ≤ n ∧
      (Move.make (0, 0) (0, 5) (boardOfRows cannonRows)).endRow = 0 + d.1 * n ∧
      (Move.make (0, 0) (0, 5) (boardOfRows cannonRows)).endCol = 0 + d.2 * n ∧
      screenOK (boardOfRows cannonRows) 0 0 d n :=
  C6_cannon_screen (boardOfRows cannonRows) "RED" 0 0
    (Move.make (0, 0) (0, 5) (boardOfRows cannonRows))
    (by decide) (by decide) (by decide) (by decide)
    (cellsWf_of_scan (by decide)) (by decide) (Or.inl (by decide))

set_option maxRecDepth 40000 in
set_option maxHeartbeats 4000000 in
theorem C7_pawn_moves_exactly_witness :
    Move.make (7, 3) (8, 3) (boardOfRows pawnDiagRows) ∈
        getPawnMoves (boardOfRows pawnDiagRows) "RED" 7 3 ↔
      (0 ≤ 7 + pawnDir "RED" ∧ 7 + pawnDir "RED" ≤ 9 ∧
        (boardOfRows pawnDiagRows (7 + pawnDir "RED") 3 = ('-','-') ∨
          (boardOfRows pawnDiagRows (7 + pawnDir "RED") 3).1 = pawnEnemy "RED") ∧
        Move.make (7, 3) (8, 3) (boardOfRows pawnDiagRows) =
          Move.make (7, 3) (7 + pawnDir "RED", 3) (boardOfRows pawnDiagRows)) ∨
      (0 ≤ (3 : Int) + 1 ∧ (3 : Int) + 1 ≤ 8 ∧
        (boardOfRows pawnDiagRows 7 (3 + 1) = ('-','-') ∨
          (boardOfRows pawnDiagRows 7 (3 + 1)).1 = pawnEnemy "RED") ∧
        Move.make (7, 3) (8, 3) (boardOfRows pawnDiagRows) =
          Move.make (7, 3) (7, 3 + 1) (boardOfRows pawnDiagRows)) ∨
      (0 ≤ (3 : Int) - 1 ∧ (3 : Int) - 1 ≤ 8 ∧
        (boardOfRows pawnDiagRows 7 (3 - 1) = ('-','-') ∨
          (boardOfRows pawnDiagRows 7 (3 - 1)).1 = pawnEnemy "RED") ∧
        Move.make (7, 3) (8, 3) (boardOfRows pawnDiagRows) =
          Move.make (7, 3) (7, 3 - 1) (boardOfRows pawnDiagRows)) :=
  C7_pawn_moves_exactly (boardOfRows pawnDiagRows) "RED" 7 3
    (Move.make (7, 3) (8, 3) (boardOfRows pawnDiagRows)) (Or.inl rfl)

set_option maxRecDepth 40000 in
set_option maxHeartbeats 4000000 in
theorem C10_pseudo_dest_and_bounds_witness :
    (boardOfRows twoKingsRows 1 3).1 ≠ sideChar "RED" ∧
    0 ≤ (1 : Int) ∧ (1 : Int) ≤ 9 ∧ 0 ≤ (4 : Int) ∧ (4 : Int) ≤ 8 ∧
    0 ≤ (1 : Int) ∧ (1 : Int) ≤ 9 ∧ 0 ≤ (3 : Int) ∧ (3 : Int) ≤ 8 :=
  C10_pseudo_dest_and_bounds (boardOfRows twoKingsRows) "RED"
    (Move.mk 1 4 1 3 ('R','K') ('-','-')) (Or.inl rfl) (by decide)
